import Mathlib

/-!
Bluetooth UUID canonicalisation (epan/dissectors/packet-bluetooth.c)

A shallow embedding of the UUID codec of the Bluetooth dissector:
`get_bluetooth_uuid` (wire bytes to canonical form),
`get_bluetooth_uuid_from_str` (text to canonical form) and
`print_numeric_bluetooth_uuid` (canonical form to text), and of the registry of
custom UUIDs: the UAT callbacks `bt_uuids_update_cb`, `bt_uuids_free_cb` and
`bt_uuids_post_update_cb`, the tree `bluetooth_uuids` and `print_bluetooth_uuid`.

Conventions of the embedding:
* a `uint8_t` is a `Nat` that is reduced `% 256` where the C code narrows,
  a `uint16_t` is a `Nat` reduced `% 65536`;
* the array `uint8_t data[16]` is a `List Nat`; `data[i] = v` is `List.set`,
  a read `data[i]` is `List.getD _ i 0`;
* a C string is the `String` of its characters before the terminator, a
  `NULL` pointer is `none`; reading the terminator gives `Char.ofNat 0`;
* a function that can leave by an exception or an assertion returns `Option`.
-/

namespace Bluetooth

/-! ## Data model -/

/-- The struct `bluetooth_uuid_t` of packet-bluetooth.h:
`uint16_t bt_uuid; uint8_t size; uint8_t data[16];`. -/
structure bluetooth_uuid_t where
  bt_uuid : Nat
  size : Nat
  data : List Nat
deriving DecidableEq

/-- The value left by `memset(&uuid, 0, sizeof(uuid))`. -/
def uuid_zero : bluetooth_uuid_t :=
  { bt_uuid := 0, size := 0, data := [0, 0, 0, 0, 0, 0, 0, 0, 0, 0, 0, 0, 0, 0, 0, 0] }

/-- A read `uuid.data[i]`. -/
def rd (data : List Nat) (i : Nat) : Nat := data.getD i 0

/-- The C expression `lo | hi << 8` on two `uint8_t` operands, stored in a
`uint16_t`. -/
def mk16 (lo hi : Nat) : Nat := (lo ||| (hi <<< 8)) % 65536

/-- The test shared by both entry points on a 16-byte buffer: bytes 0 and 1
are zero and bytes 4..15 are `00 00 10 00 80 00 00 80 5F 9B 34 FB`. -/
def is_base_uuid16 (data : List Nat) : Bool :=
  rd data 0 == 0x00 && rd data 1 == 0x00 &&
  rd data 4 == 0x00 && rd data 5 == 0x00 && rd data 6 == 0x10 &&
  rd data 7 == 0x00 && rd data 8 == 0x80 && rd data 9 == 0x00 &&
  rd data 10 == 0x00 && rd data 11 == 0x80 && rd data 12 == 0x5F &&
  rd data 13 == 0x9B && rd data 14 == 0x34 && rd data 15 == 0xFB

/-! ## Wire bytes to canonical form -/

/-- A packet buffer: the bytes of the frame. -/
abbrev tvbuff_t := List Nat

/-- Modelled from the spec: `tvb_get_uint8` of epan/tvbuff.c is not part of
the slice. It reads the byte at a (non-negative) offset of the buffer as a
`uint8_t` and leaves by an exception, here `none`, when the offset is past the
end of the buffer. -/
def tvb_get_uint8 (tvb : tvbuff_t) (offset : Nat) : Option Nat :=
  (tvb.get? offset).map (fun b => b % 256)

/-- Sequencing of a read with the rest of the function: an exception of the
read ends the function. -/
@[noinline]
def tvb_then (b : Option Nat) (k : Nat → Option bluetooth_uuid_t) :
    Option bluetooth_uuid_t :=
  match b with
  | none => none
  | some v => k v

/-- The function `get_bluetooth_uuid(tvb, offset, size)`. -/
def get_bluetooth_uuid (tvb : tvbuff_t) (offset : Nat) (size : Int) :
    Option bluetooth_uuid_t :=
  let uuid := uuid_zero
  if size ≠ 2 ∧ size ≠ 4 ∧ size ≠ 16 then
    some uuid
  else if size = 2 then
    tvb_then (tvb_get_uint8 tvb (offset + 1)) fun d0 =>
    let data := uuid.data.set 0 d0
    tvb_then (tvb_get_uint8 tvb offset) fun d1 =>
    let data := data.set 1 d1
    some { bt_uuid := mk16 (rd data 1) (rd data 0), size := 2, data := data }
  else if size = 4 then
    tvb_then (tvb_get_uint8 tvb (offset + 3)) fun d0 =>
    let data := uuid.data.set 0 d0
    tvb_then (tvb_get_uint8 tvb (offset + 2)) fun d1 =>
    let data := data.set 1 d1
    tvb_then (tvb_get_uint8 tvb (offset + 1)) fun d2 =>
    let data := data.set 2 d2
    tvb_then (tvb_get_uint8 tvb offset) fun d3 =>
    let data := data.set 3 d3
    if rd data 0 = 0x00 ∧ rd data 1 = 0x00 then
      some { bt_uuid := mk16 (rd data 3) (rd data 2), size := 2, data := data }
    else
      some { bt_uuid := uuid.bt_uuid, size := 4, data := data }
  else
    tvb_then (tvb_get_uint8 tvb (offset + 15)) fun d0 =>
    let data := uuid.data.set 0 d0
    tvb_then (tvb_get_uint8 tvb (offset + 14)) fun d1 =>
    let data := data.set 1 d1
    tvb_then (tvb_get_uint8 tvb (offset + 13)) fun d2 =>
    let data := data.set 2 d2
    tvb_then (tvb_get_uint8 tvb (offset + 12)) fun d3 =>
    let data := data.set 3 d3
    tvb_then (tvb_get_uint8 tvb (offset + 11)) fun d4 =>
    let data := data.set 4 d4
    tvb_then (tvb_get_uint8 tvb (offset + 10)) fun d5 =>
    let data := data.set 5 d5
    tvb_then (tvb_get_uint8 tvb (offset + 9)) fun d6 =>
    let data := data.set 6 d6
    tvb_then (tvb_get_uint8 tvb (offset + 8)) fun d7 =>
    let data := data.set 7 d7
    tvb_then (tvb_get_uint8 tvb (offset + 7)) fun d8 =>
    let data := data.set 8 d8
    tvb_then (tvb_get_uint8 tvb (offset + 6)) fun d9 =>
    let data := data.set 9 d9
    tvb_then (tvb_get_uint8 tvb (offset + 5)) fun d10 =>
    let data := data.set 10 d10
    tvb_then (tvb_get_uint8 tvb (offset + 4)) fun d11 =>
    let data := data.set 11 d11
    tvb_then (tvb_get_uint8 tvb (offset + 3)) fun d12 =>
    let data := data.set 12 d12
    tvb_then (tvb_get_uint8 tvb (offset + 2)) fun d13 =>
    let data := data.set 13 d13
    tvb_then (tvb_get_uint8 tvb (offset + 1)) fun d14 =>
    let data := data.set 14 d14
    tvb_then (tvb_get_uint8 tvb offset) fun d15 =>
    let data := data.set 15 d15
    if is_base_uuid16 data then
      some { bt_uuid := mk16 (rd data 3) (rd data 2), size := 2, data := data }
    else
      some { bt_uuid := uuid.bt_uuid, size := 16, data := data }

/-! ## Text to canonical form -/

/-- The template `fmt` of `get_bluetooth_uuid_from_str`. -/
def fmt : List Char := "XXXXXXXX-XXXX-XXXX-XXXX-XXXXXXXXXXXX".data

/-- The constant `fmtchars = sizeof(fmt) - 1`. -/
def fmtchars : Nat := fmt.length

/-- A read `s[i]` of a C string; the terminator reads as NUL. -/
def chr (s : List Char) (i : Nat) : Char := s.getD i (Char.ofNat 0)

/-- The GLib predicate `g_ascii_isxdigit`: `0-9`, `a-f`, `A-F`. -/
def g_ascii_isxdigit (c : Char) : Bool :=
  ('0' ≤ c && c ≤ '9') || ('a' ≤ c && c ≤ 'f') || ('A' ≤ c && c ≤ 'F')

/-- The value of a hexadecimal digit, as `strtoul` reads it in base 16. -/
def xdigit_value (c : Char) : Nat :=
  if '0' ≤ c ∧ c ≤ '9' then c.toNat - '0'.toNat
  else if 'a' ≤ c ∧ c ≤ 'f' then c.toNat - 'a'.toNat + 10
  else if 'A' ≤ c ∧ c ≤ 'F' then c.toNat - 'A'.toNat + 10
  else 0

/-- The call `strtoul(digits, NULL, 16)` on the two-character buffer `digits`:
the value of the longest prefix of hexadecimal digits. Blanks, a sign and a
`0x` prefix do not occur: the validation loop admits hexadecimal digits only. -/
def strtoul16 (digits : List Char) : Nat :=
  (digits.takeWhile g_ascii_isxdigit).foldl (fun acc c => acc * 16 + xdigit_value c) 0

/-- The validation loop of `get_bluetooth_uuid_from_str`: `true` when the loop
runs to its end, `false` when it returns early. -/
def fmt_loop (str : List Char) (size : Nat) : Bool :=
  (List.range size).all fun i =>
    if chr fmt i = 'X' then g_ascii_isxdigit (chr str i)
    else chr str i == chr fmt i

/-- The decode loop of `get_bluetooth_uuid_from_str`, `n` iterations from byte
index `i` with the read pointer at `p`; returns the final pointer and buffer. -/
def decode_loop (str : List Char) : Nat → Nat → Nat → List Nat → Nat × List Nat
  | 0, _, p, data => (p, data)
  | n + 1, i, p, data =>
    let p := if chr str p = '-' then p + 1 else p
    let digits := [chr str p, chr str (p + 1)]
    decode_loop str n (i + 1) (p + 2) (data.set i (strtoul16 digits % 256))

/-- The function `get_bluetooth_uuid_from_str(str)`; `none` is the abort of
`ws_assert_not_reached()`. -/
def get_bluetooth_uuid_from_str (str : Option String) : Option bluetooth_uuid_t :=
  let uuid := uuid_zero
  match str with
  | none => some uuid
  | some s =>
    let str := s.data
    let size := str.length
    if size ≠ 4 ∧ size ≠ 8 ∧ size ≠ fmtchars then
      some uuid
    else if ¬ fmt_loop str size then
      some uuid
    else
      let size? : Option Nat :=
        if size = 4 then some 2
        else if size = 8 then some 4
        else if size = fmtchars then some 16
        else none
      match size? with
      | none => none
      | some size =>
        let data := (decode_loop str size 0 0 uuid.data).2
        let r : List Nat × Nat :=
          if size = 4 then
            if rd data 0 = 0x00 ∧ rd data 1 = 0x00 then
              (((data.set 0 (rd data 2)).set 1 (rd data 3)), 2)
            else (data, size)
          else if size = 16 then
            if is_base_uuid16 data then
              (((data.set 0 (rd data 2)).set 1 (rd data 3)), 2)
            else (data, size)
          else (data, size)
        let data := r.1
        let size := r.2
        let bt_uuid := if size = 2 then mk16 (rd data 1) (rd data 0) else uuid.bt_uuid
        some { bt_uuid := bt_uuid, size := size % 256, data := data }

/-! ## Canonical form to text -/

/-- Modelled from the spec: `low_nibble_of_octet_to_hex` of wsutil/to_str.c is
not part of the slice. It is the lookup of the low four bits of an octet in the
table `0123456789abcdef` of lowercase hexadecimal digits. -/
def low_nibble_of_octet_to_hex (oct : Nat) : Char :=
  chr "0123456789abcdef".data (oct % 16)

/-- Modelled from the spec: `bytes_to_hexstr(out, ad, len)` of wsutil/to_str.c
is not part of the slice. It writes the `len` bytes at `ad` as `2*len`
lowercase hexadecimal digits, high nibble first, with no separator. -/
def bytes_to_hexstr (ad : List Nat) (len : Nat) : List Char :=
  (List.range len).flatMap fun i =>
    [low_nibble_of_octet_to_hex (rd ad i / 16), low_nibble_of_octet_to_hex (rd ad i)]

/-- Modelled from the spec: `bytes_to_str(pool, bd, len)` of epan/to_str.c is
not part of the slice. For the lengths that occur here (at most 16 bytes) it is
the terminated string of `bytes_to_hexstr`. -/
def bytes_to_str (bd : List Nat) (len : Nat) : String :=
  String.mk (bytes_to_hexstr bd len)

/-- The function `print_numeric_bluetooth_uuid(pool, uuid)`; `none` is the
`NULL` result. -/
def print_numeric_bluetooth_uuid (uuid : Option bluetooth_uuid_t) : Option String :=
  match uuid with
  | none => none
  | some uuid =>
    if ¬ (uuid.size > 0) then none
    else if uuid.size ≠ 16 then
      some (bytes_to_str uuid.data uuid.size)
    else
      some (String.mk
        (bytes_to_hexstr uuid.data 4 ++ ['-'] ++
         bytes_to_hexstr (uuid.data.drop 4) 2 ++ ['-'] ++
         bytes_to_hexstr (uuid.data.drop (4 + 2 * 1)) 2 ++ ['-'] ++
         bytes_to_hexstr (uuid.data.drop (4 + 2 * 2)) 2 ++ ['-'] ++
         bytes_to_hexstr (uuid.data.drop (4 + 2 * 3)) 6))

/-! ## The registry of custom UUIDs -/

/-- The UAT record `bt_uuid_t`: `char *uuid; char *label; bool long_attr;`.
A `NULL` string is `none`. -/
structure bt_uuid_t where
  uuid : Option String
  label : Option String
  long_attr : Bool
deriving DecidableEq

/-- The tree `bluetooth_uuids`: the records stored under their string keys, at
most one per key. -/
abbrev wmem_tree_t := List (String × bt_uuid_t)

/-- Modelled from the spec: `wmem_tree_insert_string` of wsutil/wmem is not part
of the slice. It stores the value under the key and replaces the value that the
key had before. -/
def wmem_tree_insert_string (tree : wmem_tree_t) (k : String) (v : bt_uuid_t) :
    wmem_tree_t :=
  (k, v) :: tree.filter fun e => e.1 ≠ k

/-- Modelled from the spec: `wmem_tree_lookup_string` of wsutil/wmem is not part
of the slice. It returns the value stored under exactly this key (the flags are
0: the comparison is case sensitive), `none` for `NULL`. -/
def wmem_tree_lookup_string (tree : wmem_tree_t) (k : String) : Option bt_uuid_t :=
  (tree.find? fun e => e.1 = k).map fun e => e.2

/-- Modelled from the spec: `wmem_tree_remove_string` of wsutil/wmem is not part
of the slice. After it a lookup of the key finds nothing; other keys keep their
values. -/
def wmem_tree_remove_string (tree : wmem_tree_t) (k : String) : wmem_tree_t :=
  tree.filter fun e => e.1 ≠ k

/-- The GLib predicate `g_ascii_isspace`: space, `\t`, `\n`, `\v`, `\f`, `\r`. -/
def g_ascii_isspace (c : Char) : Bool :=
  c == ' ' || (9 ≤ c.toNat && c.toNat ≤ 13)

/-- The GLib function `g_strstrip`: removes leading and trailing white space in
place. -/
def g_strstrip (s : String) : String :=
  String.mk ((s.data.dropWhile g_ascii_isspace).reverse.dropWhile g_ascii_isspace).reverse

/-- The GLib function `g_ascii_tolower`: `A-Z` to `a-z`, every other character
unchanged. -/
def g_ascii_tolower (c : Char) : Char :=
  if 'A' ≤ c ∧ c ≤ 'Z' then Char.ofNat (c.toNat + 32) else c

/-- Modelled from the spec: `ascii_strdown_inplace` of wsutil/str_util.c is not
part of the slice. It lowercases the ASCII letters of the string in place. -/
def ascii_strdown_inplace (s : String) : String :=
  String.mk (s.data.map g_ascii_tolower)

/-- The function `bt_uuids_update_cb(r, err)`: the record as the function leaves
it, and `*err` (`none` for `NULL`, that is for the return value `true`). The
outer `none` is an abort inside `get_bluetooth_uuid_from_str`. -/
def bt_uuids_update_cb (r : bt_uuid_t) : Option (bt_uuid_t × Option String) :=
  match r.uuid with
  | none => some (r, some "UUID can't be empty")
  | some s =>
    let r := { r with uuid := some (g_strstrip s) }
    if g_strstrip s = "" then
      some (r, some "UUID can't be empty")
    else
      match get_bluetooth_uuid_from_str r.uuid with
      | none => none
      | some uuid =>
        if uuid.size = 0 then
          some (r, some "UUID must be 16, 32, or 128-bit, with the latter formatted as XXXXXXXX-XXXX-XXXX-XXXX-XXXXXXXXXXXX")
        else
          let r := { r with uuid := some (ascii_strdown_inplace (g_strstrip s)) }
          match r.label with
          | none => some (r, some "UUID Name can't be empty")
          | some l =>
            let r := { r with label := some (g_strstrip l) }
            if g_strstrip l = "" then
              some (r, some "UUID Name can't be empty")
            else
              some (r, none)

/-- The function `bt_uuids_free_cb(r)` on the tree `bluetooth_uuids`. The tree
holds `&bt_uuids[i]`, so `found_label` points to a `bt_uuid_t`, and `strcmp`
reads the bytes of that struct, which begin with the pointer `uuid`, not the
characters of its label. What these bytes spell is a matter of memory layout:
it is the parameter `struct_bytes`. The result `none` is a `NULL` string handed
to the lookup or to `strcmp`. -/
def bt_uuids_free_cb (struct_bytes : bt_uuid_t → String) (bluetooth_uuids : wmem_tree_t)
    (r : bt_uuid_t) : Option wmem_tree_t :=
  match r.uuid with
  | none => none
  | some uuid =>
    match wmem_tree_lookup_string bluetooth_uuids uuid with
    | none => some bluetooth_uuids
    | some found_label =>
      match r.label with
      | none => none
      | some label =>
        if struct_bytes found_label = label then
          some (wmem_tree_remove_string bluetooth_uuids uuid)
        else
          some bluetooth_uuids

/-- The function `bt_uuids_post_update_cb()`: every row of the table `bt_uuids`
is inserted under its `uuid`. The rows of the table are validated rows, whose
`uuid` is not `NULL`. -/
def bt_uuids_post_update_cb (bt_uuids : List bt_uuid_t) (bluetooth_uuids : wmem_tree_t) :
    wmem_tree_t :=
  bt_uuids.foldl
    (fun tree r =>
      match r.uuid with
      | some uuid => wmem_tree_insert_string tree uuid r
      | none => tree)
    bluetooth_uuids

/-- The function `bluetooth_get_custom_uuid_description(uuid)`: the label of the
record stored under the text of the identifier, `some none` for the `NULL`
result. The outer `none` is a lookup with the `NULL` key that
`print_numeric_bluetooth_uuid` returns for width 0. -/
def bluetooth_get_custom_uuid_description (bluetooth_uuids : wmem_tree_t)
    (uuid : bluetooth_uuid_t) : Option (Option String) :=
  match print_numeric_bluetooth_uuid (some uuid) with
  | none => none
  | some key =>
    match wmem_tree_lookup_string bluetooth_uuids key with
    | some custom_uuid => some custom_uuid.label
    | none => some none

/-- The function `print_bluetooth_uuid(pool, uuid)`. The table
`bluetooth_uuid_vals_ext` of built-in names, read by `try_val_to_str_ext`, is a
parameter. -/
def print_bluetooth_uuid (try_val_to_str_ext : Nat → Option String)
    (bluetooth_uuids : wmem_tree_t) (uuid : bluetooth_uuid_t) : Option String :=
  let custom : Option String :=
    match bluetooth_get_custom_uuid_description bluetooth_uuids uuid with
    | none => none
    | some (some description) => some description
    | some none => some "Unknown"
  if uuid.bt_uuid ≠ 0 then
    match try_val_to_str_ext uuid.bt_uuid with
    | some name => some name
    | none => custom
  else
    custom

/-- Modelled from the spec: the UAT framework (epan/uat.c), which calls the
callbacks of the table, is not part of the slice. This is the operation `upsert`
of the specification, section 4.4: validation of the row by `bt_uuids_update_cb`
and, when it succeeds, insertion of the validated row by
`bt_uuids_post_update_cb`; a rejected row is not handed on and leaves the tree
as it is. -/
def upsert (bluetooth_uuids : wmem_tree_t) (r : bt_uuid_t) : Option wmem_tree_t :=
  match bt_uuids_update_cb r with
  | none => none
  | some (r', none) => some (bt_uuids_post_update_cb [r'] bluetooth_uuids)
  | some (_, some _) => some bluetooth_uuids

/-- The function `bt_uuids_copy_cb(n, o, siz)`: the new record holds copies of
the strings and the flag of the old one. -/
def bt_uuids_copy_cb (o : bt_uuid_t) : bt_uuid_t :=
  { uuid := o.uuid, label := o.label, long_attr := o.long_attr }

/-- The function `bluetooth_add_custom_uuid(uuid, label, long_attr)` on the tree
`bluetooth_uuids`: a new record with copies of the two strings is inserted under
the key `uuid` as it is given. -/
def bluetooth_add_custom_uuid (bluetooth_uuids : wmem_tree_t) (uuid label : String)
    (long_attr : Bool) : wmem_tree_t :=
  let custom_uuid : bt_uuid_t :=
    { uuid := some uuid, label := some label, long_attr := long_attr }
  wmem_tree_insert_string bluetooth_uuids uuid custom_uuid

/-- The three calls of `bluetooth_add_custom_uuid` in
`proto_reg_handoff_bluetooth`. -/
def proto_reg_handoff_bluetooth (bluetooth_uuids : wmem_tree_t) : wmem_tree_t :=
  let t1 := bluetooth_add_custom_uuid bluetooth_uuids
    "00000001-0000-1000-8000-0002EE000002" "SyncML Server" false
  let t2 := bluetooth_add_custom_uuid t1
    "00000002-0000-1000-8000-0002EE000002" "SyncML Client" false
  bluetooth_add_custom_uuid t2
    "7905F431-B5CE-4E99-A40F-4B1E122D00D0" "Apple Notification Center Service" false

/-- The decode loop of `get_bluetooth_uuid_from_str` with the data left out: for
each of the `n` iterations from the pointer `p` the position that the test
`*p == '-'` reads and the position of the first digit that is read then (the
second digit is read at the next position), and the final pointer. -/
def decode_steps (str : List Char) : Nat → Nat → List (Nat × Nat) × Nat
  | 0, p => ([], p)
  | n + 1, p =>
    let q := if chr str p = '-' then p + 1 else p
    let r := decode_steps str n (q + 2)
    ((p, q) :: r.1, r.2)

/-! ## Vocabulary of the statements -/

/-- The byte at position `k` of the wire form that starts at `offset`. -/
def wire (tvb : tvbuff_t) (offset k : Nat) : Nat := tvb.getD (offset + k) 0 % 256

/-- The canonical buffer of a 16-byte wire form: its bytes in reverse order. -/
def rev16 (tvb : tvbuff_t) (offset : Nat) : List Nat :=
  [wire tvb offset 15, wire tvb offset 14, wire tvb offset 13, wire tvb offset 12, wire tvb offset 11, wire tvb offset 10, wire tvb offset 9, wire tvb offset 8, wire tvb offset 7, wire tvb offset 6, wire tvb offset 5, wire tvb offset 4, wire tvb offset 3, wire tvb offset 2, wire tvb offset 1, wire tvb offset 0]

/-- The Base Pattern `00 00 10 00 80 00 00 80 5F 9B 34 FB` that both entry
points compare bytes 4..15 with. -/
def base_pattern : List Nat :=
  [0x00, 0x00, 0x10, 0x00, 0x80, 0x00, 0x00, 0x80, 0x5F, 0x9B, 0x34, 0xFB]

/-- The buffer after the decode loop of `n` bytes on the zeroed identifier. -/
def decoded (s : String) (n : Nat) : List Nat :=
  (decode_loop s.data n 0 0 uuid_zero.data).2

/-- The text forms of the specification, section 4.3: 4 or 8 hexadecimal digits,
or 36 characters with `-` at positions 8, 13, 18 and 23 and a hexadecimal digit
of either case at every other position. -/
def text_well_formed (s : List Char) : Prop :=
  ((s.length = 4 ∨ s.length = 8) ∧
      ∀ i, i < s.length → g_ascii_isxdigit (chr s i) = true) ∨
    (s.length = 36 ∧
      ∀ i, i < 36 →
        if i = 8 ∨ i = 13 ∨ i = 18 ∨ i = 23 then chr s i = '-'
        else g_ascii_isxdigit (chr s i) = true)

/-- A lowercase hexadecimal digit: `0-9` or `a-f`. -/
def is_lower_xdigit (c : Char) : Bool :=
  ('0' ≤ c && c ≤ '9') || ('a' ≤ c && c ≤ 'f')

/-- The position in the 36-character text of the first digit of byte `i`: two
characters per byte plus the hyphens before it. -/
def text_pos (i : Nat) : Nat :=
  2 * i + (if i < 4 then 0 else if i < 6 then 1 else if i < 8 then 2
           else if i < 10 then 3 else 4)

/-- The value of the two hexadecimal digits at the positions `q` and `q + 1` of
a text. -/
def hex_pair_at (s : List Char) (q : Nat) : Nat :=
  xdigit_value (chr s q) * 16 + xdigit_value (chr s (q + 1))

/-- The bytes that a text form denotes, in the words of the specification,
section 4.3: the hexadecimal digits taken pairwise, the hyphens of the
36-character form skipped. -/
def text_bytes (s : List Char) : List Nat :=
  if s.length = 36 then (List.range 16).map fun i => hex_pair_at s (text_pos i)
  else (List.range (s.length / 2)).map fun i => hex_pair_at s (2 * i)

/-- A letter `A-Z`. -/
def is_upper (c : Char) : Bool := 'A' ≤ c && c ≤ 'Z'

/-- The reduction rule of the 16-byte forms on the unreduced bytes `b`: width 2
exactly when bytes 0 and 1 are zero and bytes 4..15 are the Base Pattern, then
with the short value `b[2] << 8 | b[3]`; otherwise width 16 and short value 0. -/
def reduction_rule (b : List Nat) (u : bluetooth_uuid_t) : Prop :=
  (u.size = 2 ↔ rd b 0 = 0 ∧ rd b 1 = 0 ∧ b.drop 4 = base_pattern) ∧
  (u.size = 2 → u.bt_uuid = rd b 2 <<< 8 ||| rd b 3) ∧
  (u.size ≠ 2 → u.size = 16 ∧ u.bt_uuid = 0)

/-- The number of bytes that `get_bluetooth_uuid_from_str` decodes from a
validated text of `len` characters: 2 for 4, 4 for 8 and 16 for 36. -/
def byte_count (len : Nat) : Nat :=
  if len = 4 then 2 else if len = 8 then 4 else 16

/-! ## Closed forms of `get_bluetooth_uuid` -/

theorem tvb_get_uint8_of_lt (tvb : tvbuff_t) (i : Nat) (h : i < tvb.length) :
    tvb_get_uint8 tvb i = some (tvb.getD i 0 % 256) := by
  simp [tvb_get_uint8, List.getD, List.getElem?_eq_getElem h]

theorem tvb_get_uint8_wire (tvb : tvbuff_t) (offset k : Nat)
    (h : offset + k < tvb.length) :
    tvb_get_uint8 tvb (offset + k) = some (wire tvb offset k) :=
  tvb_get_uint8_of_lt tvb (offset + k) h

theorem tvb_get_uint8_wire_zero (tvb : tvbuff_t) (offset : Nat)
    (h : offset < tvb.length) :
    tvb_get_uint8 tvb offset = some (wire tvb offset 0) :=
  tvb_get_uint8_of_lt tvb offset h

theorem wire_lt (tvb : tvbuff_t) (offset k : Nat) : wire tvb offset k < 256 :=
  Nat.mod_lt _ (by decide)

theorem get_bluetooth_uuid_two (tvb : tvbuff_t) (offset : Nat)
    (h : offset + 2 ≤ tvb.length) :
    get_bluetooth_uuid tvb offset 2 =
      some { bt_uuid := mk16 (wire tvb offset 0) (wire tvb offset 1), size := 2,
             data := [wire tvb offset 1, wire tvb offset 0, 0, 0, 0, 0, 0, 0, 0, 0, 0, 0, 0, 0, 0, 0] } := by
  have h0 := tvb_get_uint8_wire_zero tvb offset (by omega)
  have h1 := tvb_get_uint8_wire tvb offset 1 (by omega)
  unfold get_bluetooth_uuid
  simp only [h0, h1, tvb_then]
  rfl

theorem get_bluetooth_uuid_four (tvb : tvbuff_t) (offset : Nat)
    (h : offset + 4 ≤ tvb.length) :
    get_bluetooth_uuid tvb offset 4 =
      some (if wire tvb offset 3 = 0 ∧ wire tvb offset 2 = 0 then
              { bt_uuid := mk16 (wire tvb offset 0) (wire tvb offset 1), size := 2,
                data := [wire tvb offset 3, wire tvb offset 2, wire tvb offset 1, wire tvb offset 0, 0, 0, 0, 0, 0, 0, 0, 0, 0, 0, 0, 0] }
            else
              { bt_uuid := 0, size := 4,
                data := [wire tvb offset 3, wire tvb offset 2, wire tvb offset 1, wire tvb offset 0, 0, 0, 0, 0, 0, 0, 0, 0, 0, 0, 0, 0] }) := by
  have h0 := tvb_get_uint8_wire_zero tvb offset (by omega)
  have h1 := tvb_get_uint8_wire tvb offset 1 (by omega)
  have h2 := tvb_get_uint8_wire tvb offset 2 (by omega)
  have h3 := tvb_get_uint8_wire tvb offset 3 (by omega)
  unfold get_bluetooth_uuid
  simp only [h0, h1, h2, h3, tvb_then]
  by_cases hc : wire tvb offset 3 = 0 ∧ wire tvb offset 2 = 0
  · rw [if_pos hc]
    simp [uuid_zero, rd, hc]
  · rw [if_neg hc]
    simp [uuid_zero, rd, hc]

theorem get_bluetooth_uuid_sixteen (tvb : tvbuff_t) (offset : Nat)
    (h : offset + 16 ≤ tvb.length) :
    get_bluetooth_uuid tvb offset 16 =
      some (if is_base_uuid16 (rev16 tvb offset) = true then
              { bt_uuid := mk16 (wire tvb offset 12) (wire tvb offset 13), size := 2, data := rev16 tvb offset }
            else
              { bt_uuid := 0, size := 16, data := rev16 tvb offset }) := by
  have h0 := tvb_get_uint8_wire_zero tvb offset (by omega)
  have h1 := tvb_get_uint8_wire tvb offset 1 (by omega)
  have h2 := tvb_get_uint8_wire tvb offset 2 (by omega)
  have h3 := tvb_get_uint8_wire tvb offset 3 (by omega)
  have h4 := tvb_get_uint8_wire tvb offset 4 (by omega)
  have h5 := tvb_get_uint8_wire tvb offset 5 (by omega)
  have h6 := tvb_get_uint8_wire tvb offset 6 (by omega)
  have h7 := tvb_get_uint8_wire tvb offset 7 (by omega)
  have h8 := tvb_get_uint8_wire tvb offset 8 (by omega)
  have h9 := tvb_get_uint8_wire tvb offset 9 (by omega)
  have h10 := tvb_get_uint8_wire tvb offset 10 (by omega)
  have h11 := tvb_get_uint8_wire tvb offset 11 (by omega)
  have h12 := tvb_get_uint8_wire tvb offset 12 (by omega)
  have h13 := tvb_get_uint8_wire tvb offset 13 (by omega)
  have h14 := tvb_get_uint8_wire tvb offset 14 (by omega)
  have h15 := tvb_get_uint8_wire tvb offset 15 (by omega)
  unfold get_bluetooth_uuid
  simp only [h0, h1, h2, h3, h4, h5, h6, h7, h8, h9, h10, h11, h12, h13, h14, h15, tvb_then]
  have e : (((((((((((((((((uuid_zero.data.set 0 (wire tvb offset 15)).set 1 (wire tvb offset 14)).set 2 (wire tvb offset 13)).set 3 (wire tvb offset 12)).set 4 (wire tvb offset 11)).set 5 (wire tvb offset 10)).set 6 (wire tvb offset 9)).set 7 (wire tvb offset 8)).set 8 (wire tvb offset 7)).set 9 (wire tvb offset 6)).set 10 (wire tvb offset 5)).set 11 (wire tvb offset 4)).set 12 (wire tvb offset 3)).set 13 (wire tvb offset 2)).set 14 (wire tvb offset 1)).set 15 (wire tvb offset 0))) = rev16 tvb offset := rfl
  rw [e]
  have r3 : rd (rev16 tvb offset) 3 = wire tvb offset 12 := rfl
  have r2 : rd (rev16 tvb offset) 2 = wire tvb offset 13 := rfl
  rw [r3, r2]
  have s1 : ¬ ((16 : Int) ≠ 2 ∧ (16 : Int) ≠ 4 ∧ (16 : Int) ≠ 16) := by decide
  have s2 : ¬ ((16 : Int) = 2) := by decide
  have s3 : ¬ ((16 : Int) = 4) := by decide
  rw [if_neg s1, if_neg s2, if_neg s3]
  by_cases hb : is_base_uuid16 (rev16 tvb offset) = true
  · rw [if_pos hb, if_pos hb]
  · rw [if_neg hb, if_neg hb]
    rfl

theorem mk16_eq (lo hi : Nat) (hlo : lo < 256) (hhi : hi < 256) :
    mk16 lo hi = hi <<< 8 ||| lo := by
  unfold mk16
  have e : hi <<< 8 ||| lo = 2 ^ 8 * hi + lo := by
    rw [Nat.shiftLeft_eq, Nat.mul_comm]
    exact (Nat.mul_add_lt_is_or (by simpa using hlo) hi).symm
  rw [Nat.or_comm, e]
  apply Nat.mod_eq_of_lt
  norm_num
  omega

theorem rev16_length (tvb : tvbuff_t) (offset : Nat) : (rev16 tvb offset).length = 16 := rfl

/-- The test of the 16-byte branch, spelled out on a 16-byte buffer. -/
theorem is_base_uuid16_iff (data : List Nat) (h : data.length = 16) :
    is_base_uuid16 data = true ↔
      rd data 0 = 0 ∧ rd data 1 = 0 ∧ data.drop 4 = base_pattern := by
  match data, h with
  | [a0, a1, a2, a3, a4, a5, a6, a7, a8, a9, a10, a11, a12, a13, a14, a15], _ =>
    simp [is_base_uuid16, rd, base_pattern, and_assoc]

/-! ## Claims on `get_bluetooth_uuid` -/

/-- C1: for every width `w` in {2, 4, 16} and every wire buffer that holds `w`
bytes at `offset`, `get_bluetooth_uuid` returns an identifier whose `data[w-1-i]`
is the wire byte `i`, for all `i < w`: the canonical buffer is the byte reversal
of the wire bytes. -/
theorem C1_get_bluetooth_uuid_reverses_wire (tvb : tvbuff_t) (offset w : Nat)
    (hw : w = 2 ∨ w = 4 ∨ w = 16) (h : offset + w ≤ tvb.length) :
    ∃ u, get_bluetooth_uuid tvb offset (w : Int) = some u ∧
      ∀ i, i < w → tvb_get_uint8 tvb (offset + i) = some (rd u.data (w - 1 - i)) := by
  rcases hw with rfl | rfl | rfl
  · refine ⟨_, get_bluetooth_uuid_two tvb offset h, ?_⟩
    intro i hi
    rw [tvb_get_uint8_wire tvb offset i (by omega)]
    interval_cases i <;> rfl
  · have e := get_bluetooth_uuid_four tvb offset h
    by_cases hc : wire tvb offset 3 = 0 ∧ wire tvb offset 2 = 0
    · rw [if_pos hc] at e
      refine ⟨_, e, ?_⟩
      intro i hi
      rw [tvb_get_uint8_wire tvb offset i (by omega)]
      interval_cases i <;> rfl
    · rw [if_neg hc] at e
      refine ⟨_, e, ?_⟩
      intro i hi
      rw [tvb_get_uint8_wire tvb offset i (by omega)]
      interval_cases i <;> rfl
  · have e := get_bluetooth_uuid_sixteen tvb offset h
    by_cases hb : is_base_uuid16 (rev16 tvb offset) = true
    · rw [if_pos hb] at e
      refine ⟨_, e, ?_⟩
      intro i hi
      rw [tvb_get_uint8_wire tvb offset i (by omega)]
      interval_cases i <;> rfl
    · rw [if_neg hb] at e
      refine ⟨_, e, ?_⟩
      intro i hi
      rw [tvb_get_uint8_wire tvb offset i (by omega)]
      interval_cases i <;> rfl

/-- Witness of C1: the wire bytes `00 28` at width 2 give the canonical bytes
`28 00` and the short value `0x2800`. -/
theorem C1_get_bluetooth_uuid_reverses_wire_witness :
    get_bluetooth_uuid [0x00, 0x28] 0 2 =
        some { bt_uuid := 0x2800, size := 2,
               data := [0x28, 0x00, 0, 0, 0, 0, 0, 0, 0, 0, 0, 0, 0, 0, 0, 0] } ∧
      ∃ u, get_bluetooth_uuid [0x00, 0x28] 0 ((2 : Nat) : Int) = some u ∧
        ∀ i, i < 2 → tvb_get_uint8 [0x00, 0x28] (0 + i) = some (rd u.data (2 - 1 - i)) :=
  ⟨by decide, C1_get_bluetooth_uuid_reverses_wire [0x00, 0x28] 0 2 (Or.inl rfl) (by decide)⟩

/-- C2: a 2-byte wire input is returned at width 2; a 4-byte wire input is
returned at width 2 exactly when canonical bytes 0 and 1 (wire bytes 3 and 2)
are both zero, then with `bt_uuid = data[2] << 8 | data[3]`, and at width 4
otherwise. -/
theorem C2_get_bluetooth_uuid_width_2_4 (tvb : tvbuff_t) (offset w : Nat)
    (hw : w = 2 ∨ w = 4) (h : offset + w ≤ tvb.length) :
    ∃ u, get_bluetooth_uuid tvb offset (w : Int) = some u ∧
      (w = 2 → u.size = 2) ∧
      (w = 4 →
        (u.size = 2 ↔ rd u.data 0 = 0 ∧ rd u.data 1 = 0) ∧
        (rd u.data 0 = 0 ∧ rd u.data 1 = 0 ↔
          tvb_get_uint8 tvb (offset + 3) = some 0 ∧
          tvb_get_uint8 tvb (offset + 2) = some 0) ∧
        (u.size = 2 → u.bt_uuid = rd u.data 2 <<< 8 ||| rd u.data 3) ∧
        (u.size ≠ 2 → u.size = 4)) := by
  rcases hw with rfl | rfl
  · exact ⟨_, get_bluetooth_uuid_two tvb offset h, fun _ => rfl, fun h4 => absurd h4 (by decide)⟩
  · have e := get_bluetooth_uuid_four tvb offset h
    have g3 := tvb_get_uint8_wire tvb offset 3 (by omega)
    have g2 := tvb_get_uint8_wire tvb offset 2 (by omega)
    by_cases hc : wire tvb offset 3 = 0 ∧ wire tvb offset 2 = 0
    · rw [if_pos hc] at e
      refine ⟨_, e, fun h2 => absurd h2 (by decide), fun _ => ⟨?_, ?_, ?_, ?_⟩⟩
      · exact ⟨fun _ => hc, fun _ => rfl⟩
      · rw [g3, g2]
        simp [rd, hc]
      · intro _
        exact mk16_eq _ _ (wire_lt tvb offset 0) (wire_lt tvb offset 1)
      · intro hn
        exact absurd rfl hn
    · rw [if_neg hc] at e
      refine ⟨_, e, fun h2 => absurd h2 (by decide), fun _ => ⟨?_, ?_, ?_, ?_⟩⟩
      · constructor
        · intro hs
          exact absurd hs (by simp)
        · intro hz
          exact absurd hz hc
      · rw [g3, g2]
        simp [rd]
      · intro hs
        exact absurd hs (by simp)
      · intro _
        rfl

/-- Witness of C2: the 4-byte wire form `34 12 00 00` is reduced to width 2
with short value `0x1234`. -/
theorem C2_get_bluetooth_uuid_width_2_4_witness :
    get_bluetooth_uuid [0x34, 0x12, 0x00, 0x00] 0 4 =
        some { bt_uuid := 0x1234, size := 2,
               data := [0x00, 0x00, 0x12, 0x34, 0, 0, 0, 0, 0, 0, 0, 0, 0, 0, 0, 0] } ∧
      ∃ u, get_bluetooth_uuid [0x34, 0x12, 0x00, 0x00] 0 ((4 : Nat) : Int) = some u ∧
        ((4 : Nat) = 2 → u.size = 2) ∧
        ((4 : Nat) = 4 →
          (u.size = 2 ↔ rd u.data 0 = 0 ∧ rd u.data 1 = 0) ∧
          (rd u.data 0 = 0 ∧ rd u.data 1 = 0 ↔
            tvb_get_uint8 [0x34, 0x12, 0x00, 0x00] (0 + 3) = some 0 ∧
            tvb_get_uint8 [0x34, 0x12, 0x00, 0x00] (0 + 2) = some 0) ∧
          (u.size = 2 → u.bt_uuid = rd u.data 2 <<< 8 ||| rd u.data 3) ∧
          (u.size ≠ 2 → u.size = 4)) :=
  ⟨by decide,
   C2_get_bluetooth_uuid_width_2_4 [0x34, 0x12, 0x00, 0x00] 0 4 (Or.inr rfl) (by decide)⟩

/-- Counterexample to C3 as stated: the 16-byte identifier
`12345678-0000-1000-8000-00805f9b34fb` carries the Base Pattern in bytes 4..15
and is returned at width 16, not at width 2. -/
theorem C3_counterexample :
    ¬ (∀ (tvb : tvbuff_t) (offset : Nat), offset + 16 ≤ tvb.length →
        (rev16 tvb offset).drop 4 = base_pattern →
        ∃ u, get_bluetooth_uuid tvb offset 16 = some u ∧ u.size = 2 ∧
          u.bt_uuid = rd (rev16 tvb offset) 0 <<< 8 ||| rd (rev16 tvb offset) 1) := by
  intro hall
  obtain ⟨u, hu, hs, _⟩ := hall
    [0xFB, 0x34, 0x9B, 0x5F, 0x80, 0x00, 0x00, 0x80, 0x00, 0x10, 0x00, 0x00,
     0x78, 0x56, 0x34, 0x12] 0 (by decide) (by decide)
  have e : get_bluetooth_uuid
      [0xFB, 0x34, 0x9B, 0x5F, 0x80, 0x00, 0x00, 0x80, 0x00, 0x10, 0x00, 0x00,
       0x78, 0x56, 0x34, 0x12] 0 16 =
      some { bt_uuid := 0, size := 16,
             data := [0x12, 0x34, 0x56, 0x78, 0x00, 0x00, 0x10, 0x00, 0x80, 0x00, 0x00,
                      0x80, 0x5F, 0x9B, 0x34, 0xFB] } := by decide
  rw [e] at hu
  cases hu
  exact absurd hs (by decide)

/-- C3 (amended): for every 16-byte wire input whose canonical bytes 0..1 are
zero and whose canonical bytes 4..15 equal the Base Pattern,
`get_bluetooth_uuid` returns width 2 with `bt_uuid = bytes[2] << 8 | bytes[3]`
of the reversed buffer. -/
theorem C3_get_bluetooth_uuid_base_reduction (tvb : tvbuff_t) (offset : Nat)
    (h : offset + 16 ≤ tvb.length)
    (h0 : rd (rev16 tvb offset) 0 = 0) (h1 : rd (rev16 tvb offset) 1 = 0)
    (hb : (rev16 tvb offset).drop 4 = base_pattern) :
    ∃ u, get_bluetooth_uuid tvb offset 16 = some u ∧ u.size = 2 ∧
      u.bt_uuid = rd (rev16 tvb offset) 2 <<< 8 ||| rd (rev16 tvb offset) 3 := by
  have e := get_bluetooth_uuid_sixteen tvb offset h
  have hc : is_base_uuid16 (rev16 tvb offset) = true :=
    (is_base_uuid16_iff _ (rev16_length tvb offset)).mpr ⟨h0, h1, hb⟩
  rw [if_pos hc] at e
  exact ⟨_, e, rfl, mk16_eq _ _ (wire_lt tvb offset 12) (wire_lt tvb offset 13)⟩

/-- Witness of C3 (amended): the wire form of
`00001234-0000-1000-8000-00805f9b34fb`. -/
theorem C3_get_bluetooth_uuid_base_reduction_witness :
    ∃ u, get_bluetooth_uuid
        [0xFB, 0x34, 0x9B, 0x5F, 0x80, 0x00, 0x00, 0x80, 0x00, 0x10, 0x00, 0x00,
         0x34, 0x12, 0x00, 0x00] 0 16 = some u ∧ u.size = 2 ∧
      u.bt_uuid =
        rd (rev16 [0xFB, 0x34, 0x9B, 0x5F, 0x80, 0x00, 0x00, 0x80, 0x00, 0x10, 0x00, 0x00,
                   0x34, 0x12, 0x00, 0x00] 0) 2 <<< 8 |||
        rd (rev16 [0xFB, 0x34, 0x9B, 0x5F, 0x80, 0x00, 0x00, 0x80, 0x00, 0x10, 0x00, 0x00,
                   0x34, 0x12, 0x00, 0x00] 0) 3 :=
  C3_get_bluetooth_uuid_base_reduction
    [0xFB, 0x34, 0x9B, 0x5F, 0x80, 0x00, 0x00, 0x80, 0x00, 0x10, 0x00, 0x00,
     0x34, 0x12, 0x00, 0x00] 0 (by decide) (by decide) (by decide) (by decide)

/-- C4: `get_bluetooth_uuid` returns the invalid result (width 0, `bt_uuid` 0
and all 16 data bytes 0) if and only if the requested width is not 2, 4 or 16;
for the widths 2, 4 and 16 it returns a non-zero width whatever the bytes are. -/
theorem C4_get_bluetooth_uuid_invalid_iff (tvb : tvbuff_t) (offset : Nat) (size : Int)
    (h : size = 2 ∨ size = 4 ∨ size = 16 → offset + size.toNat ≤ tvb.length) :
    ∃ u, get_bluetooth_uuid tvb offset size = some u ∧
      (u = uuid_zero ↔ ¬ (size = 2 ∨ size = 4 ∨ size = 16)) ∧
      (u.size = 0 ↔ ¬ (size = 2 ∨ size = 4 ∨ size = 16)) := by
  by_cases hs : size = 2 ∨ size = 4 ∨ size = 16
  · have hlen := h hs
    have key : ∃ u, get_bluetooth_uuid tvb offset size = some u ∧ u.size ≠ 0 := by
      rcases hs with rfl | rfl | rfl
      · exact ⟨_, get_bluetooth_uuid_two tvb offset hlen, by simp⟩
      · have e := get_bluetooth_uuid_four tvb offset hlen
        by_cases hc : wire tvb offset 3 = 0 ∧ wire tvb offset 2 = 0
        · rw [if_pos hc] at e
          exact ⟨_, e, by simp⟩
        · rw [if_neg hc] at e
          exact ⟨_, e, by simp⟩
      · have e := get_bluetooth_uuid_sixteen tvb offset hlen
        by_cases hb : is_base_uuid16 (rev16 tvb offset) = true
        · rw [if_pos hb] at e
          exact ⟨_, e, by simp⟩
        · rw [if_neg hb] at e
          exact ⟨_, e, by simp⟩
    obtain ⟨u, hu, hne⟩ := key
    refine ⟨u, hu, ?_, ?_⟩
    · constructor
      · intro hz
        rw [hz] at hne
        exact absurd rfl hne
      · intro hn
        exact absurd hs hn
    · constructor
      · intro hz
        exact absurd hz hne
      · intro hn
        exact absurd hs hn
  · refine ⟨uuid_zero, ?_, ?_, ?_⟩
    · unfold get_bluetooth_uuid
      have hc : size ≠ 2 ∧ size ≠ 4 ∧ size ≠ 16 := by
        refine ⟨fun e => hs (Or.inl e), fun e => hs (Or.inr (Or.inl e)),
          fun e => hs (Or.inr (Or.inr e))⟩
      simp only [if_pos hc]
    · exact ⟨fun _ => hs, fun _ => rfl⟩
    · exact ⟨fun _ => hs, fun _ => rfl⟩

/-- Witness of C4: width 3 gives the invalid result on any buffer. -/
theorem C4_get_bluetooth_uuid_invalid_iff_witness :
    get_bluetooth_uuid [0x01, 0x02, 0x03] 0 3 = some uuid_zero ∧
      ∃ u, get_bluetooth_uuid [0x01, 0x02, 0x03] 0 3 = some u ∧
        (u = uuid_zero ↔ ¬ ((3 : Int) = 2 ∨ (3 : Int) = 4 ∨ (3 : Int) = 16)) ∧
        (u.size = 0 ↔ ¬ ((3 : Int) = 2 ∨ (3 : Int) = 4 ∨ (3 : Int) = 16)) :=
  ⟨by decide,
   C4_get_bluetooth_uuid_invalid_iff [0x01, 0x02, 0x03] 0 3 (fun hs => absurd hs (by decide))⟩

/-! ## The loops of `get_bluetooth_uuid_from_str` -/

theorem fmt_loop_iff (str : List Char) (size : Nat) :
    fmt_loop str size = true ↔
      ∀ i, i < size →
        if chr fmt i = 'X' then g_ascii_isxdigit (chr str i) = true
        else chr str i = chr fmt i := by
  unfold fmt_loop
  rw [List.all_eq_true]
  constructor
  · intro h i hi
    have := h i (List.mem_range.mpr hi)
    by_cases hx : chr fmt i = 'X'
    · simpa [hx] using this
    · simpa [hx] using this
  · intro h i hi
    have := h i (List.mem_range.mp hi)
    by_cases hx : chr fmt i = 'X'
    · simpa [hx] using this
    · simpa [hx] using this

theorem chr_fmt (i : Nat) (hi : i < 36) :
    chr fmt i = if i = 8 ∨ i = 13 ∨ i = 18 ∨ i = 23 then '-' else 'X' := by
  interval_cases i <;> rfl

theorem decode_loop_length (str : List Char) (n : Nat) :
    ∀ (i p : Nat) (data : List Nat),
      (decode_loop str n i p data).2.length = data.length := by
  induction n with
  | zero => intro i p data; rfl
  | succ n ih =>
    intro i p data
    simp only [decode_loop]
    rw [ih]
    exact List.length_set ..

theorem decode_loop_lt (str : List Char) (n : Nat) :
    ∀ (i p : Nat) (data : List Nat), (∀ x ∈ data, x < 256) →
      ∀ x ∈ (decode_loop str n i p data).2, x < 256 := by
  induction n with
  | zero => intro i p data h; exact h
  | succ n ih =>
    intro i p data h
    simp only [decode_loop]
    apply ih
    intro x hx
    rcases List.mem_or_eq_of_mem_set hx with hm | rfl
    · exact h x hm
    · exact Nat.mod_lt _ (by decide)

theorem decoded_length (s : String) (n : Nat) : (decoded s n).length = 16 := by
  unfold decoded
  rw [decode_loop_length]
  rfl

theorem rd_lt (data : List Nat) (h : ∀ x ∈ data, x < 256) (i : Nat) : rd data i < 256 := by
  unfold rd
  rw [List.getD_eq_getElem?_getD]
  cases hg : data[i]? with
  | none => simp
  | some v => simpa using h v (List.getElem?_mem hg)

theorem decoded_lt (s : String) (n i : Nat) : rd (decoded s n) i < 256 := by
  apply rd_lt
  unfold decoded
  apply decode_loop_lt
  intro x hx
  simp [uuid_zero] at hx
  omega

/-! ## Closed forms of `get_bluetooth_uuid_from_str` -/

theorem from_str_null : get_bluetooth_uuid_from_str none = some uuid_zero := rfl

theorem from_str_bad_length (s : String)
    (h : s.length ≠ 4 ∧ s.length ≠ 8 ∧ s.length ≠ 36) :
    get_bluetooth_uuid_from_str (some s) = some uuid_zero := by
  have h' : s.data.length ≠ 4 ∧ s.data.length ≠ 8 ∧ s.data.length ≠ fmtchars := h
  unfold get_bluetooth_uuid_from_str
  simp only [if_pos h']

theorem from_str_bad_fmt (s : String) (h : ¬ fmt_loop s.data s.length = true) :
    get_bluetooth_uuid_from_str (some s) = some uuid_zero := by
  have h' : ¬ fmt_loop s.data s.data.length = true := h
  unfold get_bluetooth_uuid_from_str
  by_cases hl : s.data.length ≠ 4 ∧ s.data.length ≠ 8 ∧ s.data.length ≠ fmtchars
  · simp only [if_pos hl]
  · simp only [if_neg hl, if_pos h']

theorem from_str_four (s : String) (hl : s.length = 4)
    (hf : fmt_loop s.data s.length = true) :
    get_bluetooth_uuid_from_str (some s) =
      some { bt_uuid := mk16 (rd (decoded s 2) 1) (rd (decoded s 2) 0), size := 2,
             data := decoded s 2 } := by
  have hl' : s.data.length = 4 := hl
  have hf' : fmt_loop s.data 4 = true := by rw [← hl]; exact hf
  unfold get_bluetooth_uuid_from_str
  simp [hl', hf', fmtchars, fmt, decoded]

theorem from_str_eight (s : String) (hl : s.length = 8)
    (hf : fmt_loop s.data s.length = true) :
    get_bluetooth_uuid_from_str (some s) =
      some (if rd (decoded s 4) 0 = 0 ∧ rd (decoded s 4) 1 = 0 then
              { bt_uuid :=
                  mk16 (rd (((decoded s 4).set 0 (rd (decoded s 4) 2)).set 1
                              (rd (decoded s 4) 3)) 1)
                       (rd (((decoded s 4).set 0 (rd (decoded s 4) 2)).set 1
                              (rd (decoded s 4) 3)) 0),
                size := 2,
                data := ((decoded s 4).set 0 (rd (decoded s 4) 2)).set 1 (rd (decoded s 4) 3) }
            else
              { bt_uuid := 0, size := 4, data := decoded s 4 }) := by
  have hl' : s.data.length = 8 := hl
  have hf' : fmt_loop s.data 8 = true := by rw [← hl]; exact hf
  unfold get_bluetooth_uuid_from_str
  by_cases hc : rd (decoded s 4) 0 = 0 ∧ rd (decoded s 4) 1 = 0
  · have hc' := hc
    unfold decoded at hc'
    have hz : uuid_zero.bt_uuid = 0 := rfl
    simp [hl', hf', fmtchars, fmt, decoded, hc', hz]
  · have hc' := hc
    unfold decoded at hc'
    have hz : uuid_zero.bt_uuid = 0 := rfl
    simp [hl', hf', fmtchars, fmt, decoded, hc', hz]

theorem from_str_thirtysix (s : String) (hl : s.length = 36)
    (hf : fmt_loop s.data s.length = true) :
    get_bluetooth_uuid_from_str (some s) =
      some (if is_base_uuid16 (decoded s 16) = true then
              { bt_uuid :=
                  mk16 (rd (((decoded s 16).set 0 (rd (decoded s 16) 2)).set 1
                              (rd (decoded s 16) 3)) 1)
                       (rd (((decoded s 16).set 0 (rd (decoded s 16) 2)).set 1
                              (rd (decoded s 16) 3)) 0),
                size := 2,
                data :=
                  ((decoded s 16).set 0 (rd (decoded s 16) 2)).set 1 (rd (decoded s 16) 3) }
            else
              { bt_uuid := 0, size := 16, data := decoded s 16 }) := by
  have hl' : s.data.length = 36 := hl
  have hf' : fmt_loop s.data 36 = true := by rw [← hl]; exact hf
  unfold get_bluetooth_uuid_from_str
  by_cases hc : is_base_uuid16 (decoded s 16) = true
  · have hc' := hc
    unfold decoded at hc'
    have hz : uuid_zero.bt_uuid = 0 := rfl
    simp [hl', hf', fmtchars, fmt, decoded, hc', hz]
  · have hc' := hc
    unfold decoded at hc'
    have hz : uuid_zero.bt_uuid = 0 := rfl
    simp [hl', hf', fmtchars, fmt, decoded, hc', hz]

theorem tvb_get_uint8_none (tvb : tvbuff_t) (i : Nat) (h : tvb.length ≤ i) :
    tvb_get_uint8 tvb i = none := by
  simp [tvb_get_uint8, List.getElem?_eq_none h]

/-- A buffer that does not hold the requested bytes makes the first read, the one
at the highest offset, leave by its exception. -/
theorem get_bluetooth_uuid_short_buffer (tvb : tvbuff_t) (offset w : Nat)
    (hw : w = 2 ∨ w = 4 ∨ w = 16) (h : tvb.length < offset + w) :
    get_bluetooth_uuid tvb offset (w : Int) = none := by
  rcases hw with rfl | rfl | rfl
  · have e := tvb_get_uint8_none tvb (offset + 1) (by omega)
    unfold get_bluetooth_uuid
    simp [e, tvb_then]
  · have e := tvb_get_uint8_none tvb (offset + 3) (by omega)
    unfold get_bluetooth_uuid
    simp [e, tvb_then]
  · have e := tvb_get_uint8_none tvb (offset + 15) (by omega)
    unfold get_bluetooth_uuid
    simp [e, tvb_then]

/-- Every identifier that `get_bluetooth_uuid` returns at width 16 failed the
test of the 16-byte branch and holds 16 bytes. -/
theorem get_bluetooth_uuid_size16 (tvb : tvbuff_t) (offset : Nat) (size : Int)
    (u : bluetooth_uuid_t) (h : get_bluetooth_uuid tvb offset size = some u)
    (hs : u.size = 16) : ¬ is_base_uuid16 u.data = true ∧ u.data.length = 16 := by
  by_cases hv : size = 2 ∨ size = 4 ∨ size = 16
  · rcases hv with rfl | rfl | rfl
    · by_cases hl : offset + 2 ≤ tvb.length
      · rw [get_bluetooth_uuid_two tvb offset hl] at h
        cases h
        simp at hs
      · have e : get_bluetooth_uuid tvb offset 2 = none :=
          get_bluetooth_uuid_short_buffer tvb offset 2 (by simp) (by omega)
        rw [e] at h
        cases h
    · by_cases hl : offset + 4 ≤ tvb.length
      · rw [get_bluetooth_uuid_four tvb offset hl] at h
        by_cases hc : wire tvb offset 3 = 0 ∧ wire tvb offset 2 = 0
        · rw [if_pos hc] at h
          cases h
          simp at hs
        · rw [if_neg hc] at h
          cases h
          simp at hs
      · have e : get_bluetooth_uuid tvb offset 4 = none :=
          get_bluetooth_uuid_short_buffer tvb offset 4 (by simp) (by omega)
        rw [e] at h
        cases h
    · by_cases hl : offset + 16 ≤ tvb.length
      · rw [get_bluetooth_uuid_sixteen tvb offset hl] at h
        by_cases hb : is_base_uuid16 (rev16 tvb offset) = true
        · rw [if_pos hb] at h
          cases h
          simp at hs
        · rw [if_neg hb] at h
          cases h
          exact ⟨hb, rfl⟩
      · have e : get_bluetooth_uuid tvb offset 16 = none :=
          get_bluetooth_uuid_short_buffer tvb offset 16 (by simp) (by omega)
        rw [e] at h
        cases h
  · have hc : size ≠ 2 ∧ size ≠ 4 ∧ size ≠ 16 :=
      ⟨fun e => hv (Or.inl e), fun e => hv (Or.inr (Or.inl e)),
        fun e => hv (Or.inr (Or.inr e))⟩
    unfold get_bluetooth_uuid at h
    simp only [if_pos hc] at h
    cases h
    simp [uuid_zero] at hs

/-- Every identifier that `get_bluetooth_uuid_from_str` returns at width 16
failed the test of the 16-byte branch and holds 16 bytes. -/
theorem from_str_size16 (str : Option String) (u : bluetooth_uuid_t)
    (h : get_bluetooth_uuid_from_str str = some u) (hs : u.size = 16) :
    ¬ is_base_uuid16 u.data = true ∧ u.data.length = 16 := by
  cases str with
  | none =>
    rw [from_str_null] at h
    cases h
    simp [uuid_zero] at hs
  | some s =>
    by_cases hf : fmt_loop s.data s.length = true
    · by_cases hl : s.length ≠ 4 ∧ s.length ≠ 8 ∧ s.length ≠ 36
      · rw [from_str_bad_length s hl] at h
        cases h
        simp [uuid_zero] at hs
      · have hl' : s.length = 4 ∨ s.length = 8 ∨ s.length = 36 := by omega
        rcases hl' with h4 | h8 | h36
        · rw [from_str_four s h4 hf] at h
          cases h
          simp at hs
        · rw [from_str_eight s h8 hf] at h
          by_cases hc : rd (decoded s 4) 0 = 0 ∧ rd (decoded s 4) 1 = 0
          · rw [if_pos hc] at h
            cases h
            simp at hs
          · rw [if_neg hc] at h
            cases h
            simp at hs
        · rw [from_str_thirtysix s h36 hf] at h
          by_cases hb : is_base_uuid16 (decoded s 16) = true
          · rw [if_pos hb] at h
            cases h
            simp at hs
          · rw [if_neg hb] at h
            cases h
            dsimp only
            exact ⟨hb, decoded_length s 16⟩
    · rw [from_str_bad_fmt s hf] at h
      cases h
      simp [uuid_zero] at hs

/-! ## Claims on the invariants of returned identifiers -/

/-- C5 (evaluation at the failing input): on the 4-byte wire form `34 12 00 00`
`get_bluetooth_uuid` returns width 2 and `bt_uuid = 0x1234` while `data[0]` and
`data[1]` are both zero, so `bt_uuid` differs from `data[0] << 8 | data[1]`;
`get_bluetooth_uuid_from_str` on the text `00001234` of the same identifier does
return `bt_uuid = data[0] << 8 | data[1]`. -/
theorem C5_get_bluetooth_uuid_reduced_short_value :
    (∃ u, get_bluetooth_uuid [0x34, 0x12, 0x00, 0x00] 0 4 = some u ∧ u.size = 2 ∧
        u.bt_uuid = 0x1234 ∧ rd u.data 0 <<< 8 ||| rd u.data 1 = 0 ∧
        u.bt_uuid ≠ rd u.data 0 <<< 8 ||| rd u.data 1) ∧
      (∃ v, get_bluetooth_uuid_from_str (some "00001234") = some v ∧ v.size = 2 ∧
        v.bt_uuid = 0x1234 ∧ v.bt_uuid = rd v.data 0 <<< 8 ||| rd v.data 1) := by
  refine ⟨⟨{ bt_uuid := 0x1234, size := 2, data := [0x00, 0x00, 0x12, 0x34, 0, 0, 0, 0, 0, 0, 0, 0, 0, 0, 0, 0] },
      by decide, rfl, rfl, by decide, by decide⟩,
    ⟨{ bt_uuid := 0x1234, size := 2, data := [0x12, 0x34, 0x12, 0x34, 0, 0, 0, 0, 0, 0, 0, 0, 0, 0, 0, 0] },
      by decide, rfl, rfl, by decide⟩⟩

/-- Counterexample to C6 as stated: the wire form of
`deadbeef-0000-1000-8000-00805f9b34fb` is returned at width 16 although its bytes
4..15 equal the Base Pattern. -/
theorem C6_counterexample :
    ¬ (∀ (tvb : tvbuff_t) (offset : Nat) (size : Int) (u : bluetooth_uuid_t),
        get_bluetooth_uuid tvb offset size = some u →
        ¬ (u.size = 16 ∧ u.data.drop 4 = base_pattern)) := by
  intro hall
  exact hall
    [0xFB, 0x34, 0x9B, 0x5F, 0x80, 0x00, 0x00, 0x80, 0x00, 0x10, 0x00, 0x00,
     0xEF, 0xBE, 0xAD, 0xDE] 0 16
    { bt_uuid := 0, size := 16,
      data := [0xDE, 0xAD, 0xBE, 0xEF, 0x00, 0x00, 0x10, 0x00, 0x80, 0x00, 0x00, 0x80,
               0x5F, 0x9B, 0x34, 0xFB] }
    (by decide) ⟨rfl, by decide⟩

/-- C6 (amended): no identifier returned by `get_bluetooth_uuid` or by
`get_bluetooth_uuid_from_str` has width 16 while its bytes 0..1 are zero and its
bytes 4..15 equal the Base Pattern. -/
theorem C6_no_width16_base_uuid (tvb : tvbuff_t) (offset : Nat) (size : Int)
    (str : Option String) (u : bluetooth_uuid_t)
    (h : get_bluetooth_uuid tvb offset size = some u ∨
         get_bluetooth_uuid_from_str str = some u) :
    ¬ (u.size = 16 ∧ rd u.data 0 = 0 ∧ rd u.data 1 = 0 ∧
        u.data.drop 4 = base_pattern) := by
  rintro ⟨hs, h0, h1, hb⟩
  have key : ¬ is_base_uuid16 u.data = true ∧ u.data.length = 16 := by
    rcases h with h | h
    · exact get_bluetooth_uuid_size16 tvb offset size u h hs
    · exact from_str_size16 str u h hs
  exact key.1 ((is_base_uuid16_iff u.data key.2).mpr ⟨h0, h1, hb⟩)

/-- Witness of C6 (amended): the identifier returned for the wire form of
`deadbeef-0000-1000-8000-00805f9b34fb`. -/
theorem C6_no_width16_base_uuid_witness :
    ¬ ((16 : Nat) = 16 ∧ rd [0xDE, 0xAD, 0xBE, 0xEF, 0x00, 0x00, 0x10, 0x00, 0x80, 0x00,
          0x00, 0x80, 0x5F, 0x9B, 0x34, 0xFB] 0 = 0 ∧
        rd [0xDE, 0xAD, 0xBE, 0xEF, 0x00, 0x00, 0x10, 0x00, 0x80, 0x00,
          0x00, 0x80, 0x5F, 0x9B, 0x34, 0xFB] 1 = 0 ∧
        ([0xDE, 0xAD, 0xBE, 0xEF, 0x00, 0x00, 0x10, 0x00, 0x80, 0x00,
          0x00, 0x80, 0x5F, 0x9B, 0x34, 0xFB] : List Nat).drop 4 = base_pattern) :=
  C6_no_width16_base_uuid
    [0xFB, 0x34, 0x9B, 0x5F, 0x80, 0x00, 0x00, 0x80, 0x00, 0x10, 0x00, 0x00,
     0xEF, 0xBE, 0xAD, 0xDE] 0 16 none
    { bt_uuid := 0, size := 16,
      data := [0xDE, 0xAD, 0xBE, 0xEF, 0x00, 0x00, 0x10, 0x00, 0x80, 0x00, 0x00, 0x80,
               0x5F, 0x9B, 0x34, 0xFB] }
    (Or.inl (by decide))

/-! ## Claims on the validation of the text form -/

theorem fmt_loop_short (str : List Char) (size : Nat) (h : size ≤ 8) :
    fmt_loop str size = true ↔ ∀ i, i < size → g_ascii_isxdigit (chr str i) = true := by
  rw [fmt_loop_iff]
  constructor
  · intro hall i hi
    have hsp : ¬ (i = 8 ∨ i = 13 ∨ i = 18 ∨ i = 23) := by omega
    have hX : chr fmt i = 'X' := by rw [chr_fmt i (by omega), if_neg hsp]
    have := hall i hi
    rw [if_pos hX] at this
    exact this
  · intro hall i hi
    have hsp : ¬ (i = 8 ∨ i = 13 ∨ i = 18 ∨ i = 23) := by omega
    have hX : chr fmt i = 'X' := by rw [chr_fmt i (by omega), if_neg hsp]
    rw [if_pos hX]
    exact hall i hi

theorem fmt_loop_long (str : List Char) :
    fmt_loop str 36 = true ↔
      ∀ i, i < 36 →
        if i = 8 ∨ i = 13 ∨ i = 18 ∨ i = 23 then chr str i = '-'
        else g_ascii_isxdigit (chr str i) = true := by
  rw [fmt_loop_iff]
  constructor
  · intro hall i hi
    have := hall i hi
    rw [chr_fmt i hi] at this
    by_cases hsp : i = 8 ∨ i = 13 ∨ i = 18 ∨ i = 23
    · rw [if_pos hsp] at this ⊢
      simpa using this
    · rw [if_neg hsp] at this ⊢
      simpa using this
  · intro hall i hi
    have := hall i hi
    rw [chr_fmt i hi]
    by_cases hsp : i = 8 ∨ i = 13 ∨ i = 18 ∨ i = 23
    · rw [if_pos hsp] at this ⊢
      simpa using this
    · rw [if_neg hsp] at this ⊢
      simpa using this

theorem text_well_formed_iff (s : String) :
    text_well_formed s.data ↔
      (s.length = 4 ∨ s.length = 8 ∨ s.length = 36) ∧ fmt_loop s.data s.length = true := by
  have hlen : s.data.length = s.length := rfl
  unfold text_well_formed
  rw [hlen]
  constructor
  · rintro (⟨h48, hx⟩ | ⟨h36, hx⟩)
    · refine ⟨by omega, (fmt_loop_short s.data s.length (by omega)).mpr hx⟩
    · refine ⟨by omega, ?_⟩
      rw [h36]
      exact (fmt_loop_long s.data).mpr hx
  · rintro ⟨hl, hf⟩
    rcases hl with h4 | h8 | h36
    · exact Or.inl ⟨Or.inl h4, (fmt_loop_short s.data s.length (by omega)).mp hf⟩
    · exact Or.inl ⟨Or.inr h8, (fmt_loop_short s.data s.length (by omega)).mp hf⟩
    · rw [h36] at hf
      exact Or.inr ⟨h36, (fmt_loop_long s.data).mp hf⟩

/-- A string that is not well formed is answered with the zeroed identifier. -/
theorem from_str_rejected (s : String) (h : ¬ text_well_formed s.data) :
    get_bluetooth_uuid_from_str (some s) = some uuid_zero := by
  rw [text_well_formed_iff] at h
  by_cases hf : fmt_loop s.data s.length = true
  · apply from_str_bad_length
    by_contra hl
    exact h ⟨by omega, hf⟩
  · exact from_str_bad_fmt s hf

/-- A well-formed string is answered with an identifier of width 2, 4 or 16. -/
theorem from_str_accepted (s : String) (h : text_well_formed s.data) :
    ∃ u, get_bluetooth_uuid_from_str (some s) = some u ∧
      (u.size = 2 ∨ u.size = 4 ∨ u.size = 16) := by
  rw [text_well_formed_iff] at h
  obtain ⟨hl, hf⟩ := h
  rcases hl with h4 | h8 | h36
  · exact ⟨_, from_str_four s h4 hf, Or.inl rfl⟩
  · have e := from_str_eight s h8 hf
    by_cases hc : rd (decoded s 4) 0 = 0 ∧ rd (decoded s 4) 1 = 0
    · rw [if_pos hc] at e
      exact ⟨_, e, Or.inl rfl⟩
    · rw [if_neg hc] at e
      exact ⟨_, e, Or.inr (Or.inl rfl)⟩
  · have e := from_str_thirtysix s h36 hf
    by_cases hb : is_base_uuid16 (decoded s 16) = true
    · rw [if_pos hb] at e
      exact ⟨_, e, Or.inl rfl⟩
    · rw [if_neg hb] at e
      exact ⟨_, e, Or.inr (Or.inr rfl)⟩

/-- C8: `get_bluetooth_uuid_from_str` accepts a string (returns a non-zero
width) if and only if it has length 4 or 8 and only hexadecimal digits, or
length 36 with `-` at positions 8, 13, 18, 23 and a hexadecimal digit of either
case elsewhere; `12345`, `12g4` and `1234567-89012345-678901234567890` are
rejected. -/
theorem C8_from_str_accepts_iff :
    (∀ s : String,
      (∃ u, get_bluetooth_uuid_from_str (some s) = some u ∧ u.size ≠ 0) ↔
        text_well_formed s.data) ∧
    get_bluetooth_uuid_from_str (some "12345") = some uuid_zero ∧
    get_bluetooth_uuid_from_str (some "12g4") = some uuid_zero ∧
    get_bluetooth_uuid_from_str (some "1234567-89012345-678901234567890") =
      some uuid_zero := by
  refine ⟨fun s => ⟨?_, ?_⟩, by decide, by decide, by decide⟩
  · rintro ⟨u, hu, hne⟩
    by_contra hw
    rw [from_str_rejected s hw] at hu
    cases hu
    exact hne rfl
  · intro hw
    obtain ⟨u, hu, hs⟩ := from_str_accepted s hw
    exact ⟨u, hu, by omega⟩

/-- C9: every string that `get_bluetooth_uuid_from_str` rejects (wrong length,
a character that is no hexadecimal digit, a misplaced hyphen) is answered with
the untouched zeroed identifier: width 0, `bt_uuid` 0 and 16 zero data bytes. -/
theorem C9_from_str_rejected_is_zero (s : String) (h : ¬ text_well_formed s.data) :
    ∃ u, get_bluetooth_uuid_from_str (some s) = some u ∧ u.size = 0 ∧ u.bt_uuid = 0 ∧
      u.data = List.replicate 16 0 :=
  ⟨uuid_zero, from_str_rejected s h, rfl, rfl, rfl⟩

/-- Witness of C9: the text `12g4`, whose third character is no hexadecimal
digit. -/
theorem C9_from_str_rejected_is_zero_witness :
    ¬ text_well_formed "12g4".data ∧
      ∃ u, get_bluetooth_uuid_from_str (some "12g4") = some u ∧ u.size = 0 ∧
        u.bt_uuid = 0 ∧ u.data = List.replicate 16 0 :=
  have hw : ¬ text_well_formed "12g4".data := by
    rintro (⟨_, hx⟩ | ⟨h36, _⟩)
    · exact absurd (hx 2 (by decide)) (by decide)
    · exact absurd h36 (by decide)
  ⟨hw, C9_from_str_rejected_is_zero "12g4" hw⟩

/-- C10 (evaluation at the failing input): for the identifier
`00001234-0000-1000-8000-00805f9b34fb` both entry points return width 2 and
`bt_uuid = 0x1234`, but the first two data bytes are `12 34` from the text and
`00 00` from the wire bytes. -/
theorem C10_text_and_wire_differ_when_reduced :
    ∃ u v,
      get_bluetooth_uuid_from_str (some "00001234-0000-1000-8000-00805f9b34fb") = some u ∧
      get_bluetooth_uuid
        [0xFB, 0x34, 0x9B, 0x5F, 0x80, 0x00, 0x00, 0x80, 0x00, 0x10, 0x00, 0x00,
         0x34, 0x12, 0x00, 0x00] 0 16 = some v ∧
      u.size = 2 ∧ v.size = 2 ∧ u.bt_uuid = 0x1234 ∧ v.bt_uuid = 0x1234 ∧
      u.data.take u.size = [0x12, 0x34] ∧ v.data.take v.size = [0x00, 0x00] ∧
      u.data.take u.size ≠ v.data.take v.size :=
  ⟨{ bt_uuid := 0x1234, size := 2,
     data := [0x12, 0x34, 0x12, 0x34, 0x00, 0x00, 0x10, 0x00, 0x80, 0x00, 0x00, 0x80,
              0x5F, 0x9B, 0x34, 0xFB] },
   { bt_uuid := 0x1234, size := 2,
     data := [0x00, 0x00, 0x12, 0x34, 0x00, 0x00, 0x10, 0x00, 0x80, 0x00, 0x00, 0x80,
              0x5F, 0x9B, 0x34, 0xFB] },
   by decide, by decide, rfl, rfl, rfl, rfl, rfl, rfl, by decide⟩

/-! ## Claims on `print_numeric_bluetooth_uuid` -/

theorem low_nibble_lower (n : Nat) :
    is_lower_xdigit (low_nibble_of_octet_to_hex n) = true := by
  unfold low_nibble_of_octet_to_hex
  have h : n % 16 < 16 := Nat.mod_lt _ (by decide)
  generalize n % 16 = m at h
  interval_cases m <;> decide

theorem low_nibble_value (n : Nat) :
    xdigit_value (low_nibble_of_octet_to_hex n) = n % 16 := by
  unfold low_nibble_of_octet_to_hex
  have h : n % 16 < 16 := Nat.mod_lt _ (by decide)
  generalize n % 16 = m at h
  interval_cases m <;> decide

theorem hex_pair_value (b : Nat) (h : b < 256) :
    xdigit_value (low_nibble_of_octet_to_hex (b / 16)) * 16 +
      xdigit_value (low_nibble_of_octet_to_hex b) = b := by
  rw [low_nibble_value, low_nibble_value]
  omega

theorem rd_drop (data : List Nat) (k i : Nat) : rd (data.drop k) i = rd data (k + i) := by
  unfold rd
  simp [List.getD_eq_getElem?_getD, List.getElem?_drop]

theorem bytes_to_hexstr_two (ad : List Nat) :
    bytes_to_hexstr ad 2 =
      [low_nibble_of_octet_to_hex (rd ad 0 / 16), low_nibble_of_octet_to_hex (rd ad 0),
       low_nibble_of_octet_to_hex (rd ad 1 / 16), low_nibble_of_octet_to_hex (rd ad 1)] := rfl

theorem bytes_to_hexstr_four (ad : List Nat) :
    bytes_to_hexstr ad 4 =
      [low_nibble_of_octet_to_hex (rd ad 0 / 16), low_nibble_of_octet_to_hex (rd ad 0),
       low_nibble_of_octet_to_hex (rd ad 1 / 16), low_nibble_of_octet_to_hex (rd ad 1),
       low_nibble_of_octet_to_hex (rd ad 2 / 16), low_nibble_of_octet_to_hex (rd ad 2),
       low_nibble_of_octet_to_hex (rd ad 3 / 16), low_nibble_of_octet_to_hex (rd ad 3)] := rfl

theorem bytes_to_hexstr_six (ad : List Nat) :
    bytes_to_hexstr ad 6 =
      [low_nibble_of_octet_to_hex (rd ad 0 / 16), low_nibble_of_octet_to_hex (rd ad 0),
       low_nibble_of_octet_to_hex (rd ad 1 / 16), low_nibble_of_octet_to_hex (rd ad 1),
       low_nibble_of_octet_to_hex (rd ad 2 / 16), low_nibble_of_octet_to_hex (rd ad 2),
       low_nibble_of_octet_to_hex (rd ad 3 / 16), low_nibble_of_octet_to_hex (rd ad 3),
       low_nibble_of_octet_to_hex (rd ad 4 / 16), low_nibble_of_octet_to_hex (rd ad 4),
       low_nibble_of_octet_to_hex (rd ad 5 / 16), low_nibble_of_octet_to_hex (rd ad 5)] := rfl

theorem print_numeric_short (u : bluetooth_uuid_t) (h0 : u.size ≠ 0) (h16 : u.size ≠ 16) :
    print_numeric_bluetooth_uuid (some u) = some (String.mk (bytes_to_hexstr u.data u.size)) := by
  have hp : u.size > 0 := Nat.pos_of_ne_zero h0
  simp [print_numeric_bluetooth_uuid, hp, h16, bytes_to_str]

theorem print_numeric_long (u : bluetooth_uuid_t) (h16 : u.size = 16) :
    print_numeric_bluetooth_uuid (some u) =
      some (String.mk
        (bytes_to_hexstr u.data 4 ++ ['-'] ++
         bytes_to_hexstr (u.data.drop 4) 2 ++ ['-'] ++
         bytes_to_hexstr (u.data.drop 6) 2 ++ ['-'] ++
         bytes_to_hexstr (u.data.drop 8) 2 ++ ['-'] ++
         bytes_to_hexstr (u.data.drop 10) 6)) := by
  simp [print_numeric_bluetooth_uuid, h16]

/-- C7: for an identifier of width 2 or 4 `print_numeric_bluetooth_uuid` returns
exactly `2 * width` lowercase hexadecimal digits that encode `data[0..width-1]`
in order; for width 16 it returns 36 characters, the lowercase hexadecimal
digits of `data[0..15]` in order, grouped 8-4-4-4-12 by `-` at positions 8, 13,
18 and 23. -/
theorem C7_print_numeric_bluetooth_uuid_text (u : bluetooth_uuid_t)
    (hb : ∀ i, i < 16 → rd u.data i < 256)
    (hw : u.size = 2 ∨ u.size = 4 ∨ u.size = 16) :
    ∃ s, print_numeric_bluetooth_uuid (some u) = some s ∧
      (u.size ≠ 16 →
        s.length = 2 * u.size ∧
        (∀ j, j < s.length → is_lower_xdigit (chr s.data j) = true) ∧
        ∀ i, i < u.size →
          xdigit_value (chr s.data (2 * i)) * 16 + xdigit_value (chr s.data (2 * i + 1)) =
            rd u.data i) ∧
      (u.size = 16 →
        s.length = 36 ∧
        (∀ j, j < 36 →
          if j = 8 ∨ j = 13 ∨ j = 18 ∨ j = 23 then chr s.data j = '-'
          else is_lower_xdigit (chr s.data j) = true) ∧
        ∀ i, i < 16 →
          xdigit_value (chr s.data (text_pos i)) * 16 +
            xdigit_value (chr s.data (text_pos i + 1)) = rd u.data i) := by
  rcases hw with h2 | h4 | h16
  · refine ⟨_, print_numeric_short u (by omega) (by omega), fun _ => ?_,
      fun h => absurd h (by omega)⟩
    rw [h2, bytes_to_hexstr_two]
    refine ⟨rfl, ?_, ?_⟩
    · intro j hj
      have hj' : j < 4 := hj
      interval_cases j <;> exact low_nibble_lower _
    · intro i hi
      interval_cases i
      · exact hex_pair_value _ (hb 0 (by decide))
      · exact hex_pair_value _ (hb 1 (by decide))
  · refine ⟨_, print_numeric_short u (by omega) (by omega), fun _ => ?_,
      fun h => absurd h (by omega)⟩
    rw [h4, bytes_to_hexstr_four]
    refine ⟨rfl, ?_, ?_⟩
    · intro j hj
      have hj' : j < 8 := hj
      interval_cases j <;> exact low_nibble_lower _
    · intro i hi
      interval_cases i
      · exact hex_pair_value _ (hb 0 (by decide))
      · exact hex_pair_value _ (hb 1 (by decide))
      · exact hex_pair_value _ (hb 2 (by decide))
      · exact hex_pair_value _ (hb 3 (by decide))
  · refine ⟨_, print_numeric_long u h16, fun h => absurd h16 h, fun _ => ?_⟩
    rw [bytes_to_hexstr_four, bytes_to_hexstr_two, bytes_to_hexstr_two, bytes_to_hexstr_two,
      bytes_to_hexstr_six]
    simp only [rd_drop, List.cons_append, List.nil_append]
    refine ⟨rfl, ?_, ?_⟩
    · intro j hj
      interval_cases j <;>
        first
        | (rw [if_pos (by decide)]; rfl)
        | (rw [if_neg (by decide)]; exact low_nibble_lower _)
    · intro i hi
      interval_cases i
      · exact hex_pair_value _ (hb 0 (by decide))
      · exact hex_pair_value _ (hb 1 (by decide))
      · exact hex_pair_value _ (hb 2 (by decide))
      · exact hex_pair_value _ (hb 3 (by decide))
      · exact hex_pair_value _ (hb 4 (by decide))
      · exact hex_pair_value _ (hb 5 (by decide))
      · exact hex_pair_value _ (hb 6 (by decide))
      · exact hex_pair_value _ (hb 7 (by decide))
      · exact hex_pair_value _ (hb 8 (by decide))
      · exact hex_pair_value _ (hb 9 (by decide))
      · exact hex_pair_value _ (hb 10 (by decide))
      · exact hex_pair_value _ (hb 11 (by decide))
      · exact hex_pair_value _ (hb 12 (by decide))
      · exact hex_pair_value _ (hb 13 (by decide))
      · exact hex_pair_value _ (hb 14 (by decide))
      · exact hex_pair_value _ (hb 15 (by decide))

/-- Witness of C7: the width-2 identifier `0x2800` is printed as `2800`; the
width-16 identifier `7905f431-b5ce-4e99-a40f-4b1e122d00d0` is printed in the
8-4-4-4-12 grouping. -/
theorem C7_print_numeric_bluetooth_uuid_text_witness :
    print_numeric_bluetooth_uuid
        (some { bt_uuid := 0x2800, size := 2, data := [0x28, 0x00, 0, 0, 0, 0, 0, 0, 0, 0, 0, 0, 0, 0, 0, 0] }) = some "2800" ∧
      print_numeric_bluetooth_uuid
        (some { bt_uuid := 0, size := 16,
                data := [0x79, 0x05, 0xF4, 0x31, 0xB5, 0xCE, 0x4E, 0x99, 0xA4, 0x0F, 0x4B,
                         0x1E, 0x12, 0x2D, 0x00, 0xD0] }) =
          some "7905f431-b5ce-4e99-a40f-4b1e122d00d0" ∧
      ∃ s, print_numeric_bluetooth_uuid
          (some { bt_uuid := 0x2800, size := 2, data := [0x28, 0x00, 0, 0, 0, 0, 0, 0, 0, 0, 0, 0, 0, 0, 0, 0] }) = some s ∧
        ((2 : Nat) ≠ 16 →
          s.length = 2 * 2 ∧
          (∀ j, j < s.length → is_lower_xdigit (chr s.data j) = true) ∧
          ∀ i, i < 2 →
            xdigit_value (chr s.data (2 * i)) * 16 + xdigit_value (chr s.data (2 * i + 1)) =
              rd [0x28, 0x00, 0, 0, 0, 0, 0, 0, 0, 0, 0, 0, 0, 0, 0, 0] i) ∧
        ((2 : Nat) = 16 →
          s.length = 36 ∧
          (∀ j, j < 36 →
            if j = 8 ∨ j = 13 ∨ j = 18 ∨ j = 23 then chr s.data j = '-'
            else is_lower_xdigit (chr s.data j) = true) ∧
          ∀ i, i < 16 →
            xdigit_value (chr s.data (text_pos i)) * 16 +
              xdigit_value (chr s.data (text_pos i + 1)) = rd [0x28, 0x00, 0, 0, 0, 0, 0, 0, 0, 0, 0, 0, 0, 0, 0, 0] i) :=
  ⟨by decide, by decide,
   C7_print_numeric_bluetooth_uuid_text
     { bt_uuid := 0x2800, size := 2, data := [0x28, 0x00, 0, 0, 0, 0, 0, 0, 0, 0, 0, 0, 0, 0, 0, 0] }
     (by decide) (Or.inl rfl)⟩

/-! ## Claims on the round trip and on the three wire forms -/

/-- Counterexample to C11 as stated, at two identifiers whose bytes 4..15 equal
the Base Pattern: for `12345678-0000-1000-8000-00805f9b34fb` the round trip
returns a width-16 identifier, and for `00001234-0000-1000-8000-00805f9b34fb` it
returns `bt_uuid = 0` where `get_bluetooth_uuid` returned `0x1234`. -/
theorem C11_counterexample :
    (¬ ∃ c t r,
        get_bluetooth_uuid
          [0xFB, 0x34, 0x9B, 0x5F, 0x80, 0x00, 0x00, 0x80, 0x00, 0x10, 0x00, 0x00,
           0x78, 0x56, 0x34, 0x12] 0 16 = some c ∧
        print_numeric_bluetooth_uuid (some c) = some t ∧
        get_bluetooth_uuid_from_str (some t) = some r ∧
        r.size = 2 ∧ r.size = c.size ∧ r.data.take r.size = c.data.take c.size ∧
        r.bt_uuid = c.bt_uuid) ∧
    (¬ ∃ c t r,
        get_bluetooth_uuid
          [0xFB, 0x34, 0x9B, 0x5F, 0x80, 0x00, 0x00, 0x80, 0x00, 0x10, 0x00, 0x00,
           0x34, 0x12, 0x00, 0x00] 0 16 = some c ∧
        print_numeric_bluetooth_uuid (some c) = some t ∧
        get_bluetooth_uuid_from_str (some t) = some r ∧
        r.size = 2 ∧ r.size = c.size ∧ r.data.take r.size = c.data.take c.size ∧
        r.bt_uuid = c.bt_uuid) := by
  constructor
  · rintro ⟨c, t, r, hc, ht, hr, hs, -⟩
    have ec : get_bluetooth_uuid
        [0xFB, 0x34, 0x9B, 0x5F, 0x80, 0x00, 0x00, 0x80, 0x00, 0x10, 0x00, 0x00,
         0x78, 0x56, 0x34, 0x12] 0 16 =
        some { bt_uuid := 0, size := 16,
               data := [0x12, 0x34, 0x56, 0x78, 0x00, 0x00, 0x10, 0x00, 0x80, 0x00, 0x00,
                        0x80, 0x5F, 0x9B, 0x34, 0xFB] } := by decide
    rw [ec] at hc
    cases hc
    have et : print_numeric_bluetooth_uuid
        (some { bt_uuid := 0, size := 16,
                data := [0x12, 0x34, 0x56, 0x78, 0x00, 0x00, 0x10, 0x00, 0x80, 0x00, 0x00,
                         0x80, 0x5F, 0x9B, 0x34, 0xFB] }) =
        some "12345678-0000-1000-8000-00805f9b34fb" := by decide
    rw [et] at ht
    cases ht
    have er : get_bluetooth_uuid_from_str (some "12345678-0000-1000-8000-00805f9b34fb") =
        some { bt_uuid := 0, size := 16,
               data := [0x12, 0x34, 0x56, 0x78, 0x00, 0x00, 0x10, 0x00, 0x80, 0x00, 0x00,
                        0x80, 0x5F, 0x9B, 0x34, 0xFB] } := by decide
    rw [er] at hr
    cases hr
    exact absurd hs (by decide)
  · rintro ⟨c, t, r, hc, ht, hr, -, -, -, hv⟩
    have ec : get_bluetooth_uuid
        [0xFB, 0x34, 0x9B, 0x5F, 0x80, 0x00, 0x00, 0x80, 0x00, 0x10, 0x00, 0x00,
         0x34, 0x12, 0x00, 0x00] 0 16 =
        some { bt_uuid := 0x1234, size := 2,
               data := [0x00, 0x00, 0x12, 0x34, 0x00, 0x00, 0x10, 0x00, 0x80, 0x00, 0x00,
                        0x80, 0x5F, 0x9B, 0x34, 0xFB] } := by decide
    rw [ec] at hc
    cases hc
    have et : print_numeric_bluetooth_uuid
        (some { bt_uuid := 0x1234, size := 2,
                data := [0x00, 0x00, 0x12, 0x34, 0x00, 0x00, 0x10, 0x00, 0x80, 0x00, 0x00,
                         0x80, 0x5F, 0x9B, 0x34, 0xFB] }) = some "0000" := by decide
    rw [et] at ht
    cases ht
    have er : get_bluetooth_uuid_from_str (some "0000") =
        some { bt_uuid := 0, size := 2, data := [0, 0, 0, 0, 0, 0, 0, 0, 0, 0, 0, 0, 0, 0, 0, 0] } := by decide
    rw [er] at hr
    cases hr
    exact absurd hv (by decide)

/-- C11 (amended): for every 16-byte identifier whose bytes 0..1 are zero and
whose bytes 4..15 equal the Base Pattern, with `c` the result of
`get_bluetooth_uuid` on its wire bytes, `get_bluetooth_uuid_from_str` on the text
`print_numeric_bluetooth_uuid(c)` returns a width-2 identifier with the width and
the two significant data bytes of `c`. -/
theorem C11_round_trip_of_reduced (tvb : tvbuff_t) (offset : Nat)
    (h : offset + 16 ≤ tvb.length)
    (h0 : rd (rev16 tvb offset) 0 = 0) (h1 : rd (rev16 tvb offset) 1 = 0)
    (hb : (rev16 tvb offset).drop 4 = base_pattern) :
    ∃ c t r,
      get_bluetooth_uuid tvb offset 16 = some c ∧
      print_numeric_bluetooth_uuid (some c) = some t ∧
      get_bluetooth_uuid_from_str (some t) = some r ∧
      c.size = 2 ∧ r.size = c.size ∧ r.data.take r.size = c.data.take c.size := by
  have e := get_bluetooth_uuid_sixteen tvb offset h
  have hc : is_base_uuid16 (rev16 tvb offset) = true :=
    (is_base_uuid16_iff _ (rev16_length tvb offset)).mpr ⟨h0, h1, hb⟩
  rw [if_pos hc] at e
  have w15 : wire tvb offset 15 = 0 := h0
  have w14 : wire tvb offset 14 = 0 := h1
  have et : print_numeric_bluetooth_uuid
      (some { bt_uuid := mk16 (wire tvb offset 12) (wire tvb offset 13), size := 2, data := rev16 tvb offset }) =
      some "0000" := by
    rw [print_numeric_short _ (by simp) (by simp)]
    dsimp only
    rw [bytes_to_hexstr_two, h0, h1]
    rfl
  have er : get_bluetooth_uuid_from_str (some "0000") =
      some { bt_uuid := 0, size := 2, data := [0, 0, 0, 0, 0, 0, 0, 0, 0, 0, 0, 0, 0, 0, 0, 0] } := by decide
  refine ⟨_, _, _, e, et, er, rfl, rfl, ?_⟩
  dsimp only
  simp [rev16, w15, w14]

/-- Witness of C11 (amended): the wire form of
`00001234-0000-1000-8000-00805f9b34fb`. -/
theorem C11_round_trip_of_reduced_witness :
    ∃ c t r,
      get_bluetooth_uuid
        [0xFB, 0x34, 0x9B, 0x5F, 0x80, 0x00, 0x00, 0x80, 0x00, 0x10, 0x00, 0x00,
         0x34, 0x12, 0x00, 0x00] 0 16 = some c ∧
      print_numeric_bluetooth_uuid (some c) = some t ∧
      get_bluetooth_uuid_from_str (some t) = some r ∧
      c.size = 2 ∧ r.size = c.size ∧ r.data.take r.size = c.data.take c.size :=
  C11_round_trip_of_reduced
    [0xFB, 0x34, 0x9B, 0x5F, 0x80, 0x00, 0x00, 0x80, 0x00, 0x10, 0x00, 0x00,
     0x34, 0x12, 0x00, 0x00] 0 (by decide) (by decide) (by decide) (by decide)

/-- C12 (evaluation at the failing input): the three wire forms of the 16-bit
value `0x1234` are all returned at width 2 with `bt_uuid = 0x1234`, but the two
significant data bytes are `12 34` for the 2-byte form and `00 00` for the 4-byte
and the 16-byte form, and the text is `1234` for the first and `0000` for the
other two. -/
theorem C12_three_wire_forms_differ :
    ∃ u2 u4 u16,
      get_bluetooth_uuid [0x34, 0x12] 0 2 = some u2 ∧
      get_bluetooth_uuid [0x34, 0x12, 0x00, 0x00] 0 4 = some u4 ∧
      get_bluetooth_uuid
        [0xFB, 0x34, 0x9B, 0x5F, 0x80, 0x00, 0x00, 0x80, 0x00, 0x10, 0x00, 0x00,
         0x34, 0x12, 0x00, 0x00] 0 16 = some u16 ∧
      u2.size = 2 ∧ u4.size = 2 ∧ u16.size = 2 ∧
      u2.bt_uuid = 0x1234 ∧ u4.bt_uuid = 0x1234 ∧ u16.bt_uuid = 0x1234 ∧
      u2.data.take 2 = [0x12, 0x34] ∧ u4.data.take 2 = [0x00, 0x00] ∧
      u16.data.take 2 = [0x00, 0x00] ∧
      print_numeric_bluetooth_uuid (some u2) = some "1234" ∧
      print_numeric_bluetooth_uuid (some u4) = some "0000" ∧
      print_numeric_bluetooth_uuid (some u16) = some "0000" :=
  ⟨{ bt_uuid := 0x1234, size := 2, data := [0x12, 0x34, 0, 0, 0, 0, 0, 0, 0, 0, 0, 0, 0, 0, 0, 0] },
   { bt_uuid := 0x1234, size := 2, data := [0x00, 0x00, 0x12, 0x34, 0, 0, 0, 0, 0, 0, 0, 0, 0, 0, 0, 0] },
   { bt_uuid := 0x1234, size := 2,
     data := [0x00, 0x00, 0x12, 0x34, 0x00, 0x00, 0x10, 0x00, 0x80, 0x00, 0x00, 0x80,
              0x5F, 0x9B, 0x34, 0xFB] },
   by decide, by decide, by decide, rfl, rfl, rfl, rfl, rfl, rfl, rfl, rfl, rfl,
   by decide, by decide, by decide⟩

/-! ## The validation of a row -/

theorem from_str_total (str : Option String) :
    ∃ u, get_bluetooth_uuid_from_str str = some u := by
  cases str with
  | none => exact ⟨_, from_str_null⟩
  | some s =>
    by_cases hw : text_well_formed s.data
    · obtain ⟨u, hu, _⟩ := from_str_accepted s hw
      exact ⟨u, hu⟩
    · exact ⟨_, from_str_rejected s hw⟩

theorem lookup_insert_self (tree : wmem_tree_t) (k : String) (v : bt_uuid_t) :
    wmem_tree_lookup_string (wmem_tree_insert_string tree k v) k = some v := by
  simp [wmem_tree_lookup_string, wmem_tree_insert_string]

theorem print_numeric_some (u : bluetooth_uuid_t) (h0 : u.size ≠ 0) :
    ∃ key, print_numeric_bluetooth_uuid (some u) = some key := by
  by_cases h16 : u.size = 16
  · exact ⟨_, print_numeric_long u h16⟩
  · exact ⟨_, print_numeric_short u h0 h16⟩

theorem print_bluetooth_uuid_custom (f : Nat → Option String) (tree : wmem_tree_t)
    (u : bluetooth_uuid_t) (hmiss : u.bt_uuid = 0 ∨ f u.bt_uuid = none) :
    print_bluetooth_uuid f tree u =
      match bluetooth_get_custom_uuid_description tree u with
      | none => none
      | some (some description) => some description
      | some none => some "Unknown" := by
  unfold print_bluetooth_uuid
  rcases hmiss with h | h
  · simp [h]
  · by_cases hz : u.bt_uuid = 0
    · simp [hz]
    · simp [hz, h]

/-! ## Claims on the registry and on the resolution of a label -/

/-- C14 (evaluation at the failing input): the row with the key text `00001234`
is accepted and stored under `00001234`, while the text of the validated
identifier, `print_numeric_bluetooth_uuid(get_bluetooth_uuid_from_str(k))`, is
`1234`; the same happens with `00001234-0000-1000-8000-00805f9b34fb`. -/
theorem C14_stored_key_of_reduced_identifier :
    (∃ r' c,
      bt_uuids_update_cb ⟨some "00001234", some "X", false⟩ = some (r', none) ∧
      r'.uuid = some "00001234" ∧
      upsert [] ⟨some "00001234", some "X", false⟩ = some [("00001234", r')] ∧
      get_bluetooth_uuid_from_str (some "00001234") = some c ∧
      print_numeric_bluetooth_uuid (some c) = some "1234") ∧
    (∃ r' c,
      bt_uuids_update_cb ⟨some "00001234-0000-1000-8000-00805F9B34FB", some "X", false⟩ =
        some (r', none) ∧
      r'.uuid = some "00001234-0000-1000-8000-00805f9b34fb" ∧
      get_bluetooth_uuid_from_str (some "00001234-0000-1000-8000-00805F9B34FB") = some c ∧
      print_numeric_bluetooth_uuid (some c) = some "1234") :=
  ⟨⟨⟨some "00001234", some "X", false⟩,
     { bt_uuid := 0x1234, size := 2, data := [0x12, 0x34, 0x12, 0x34, 0, 0, 0, 0, 0, 0, 0, 0, 0, 0, 0, 0] },
     by decide, rfl, by decide, by decide, by decide⟩,
   ⟨⟨some "00001234-0000-1000-8000-00805f9b34fb", some "X", false⟩,
     { bt_uuid := 0x1234, size := 2,
       data := [0x12, 0x34, 0x12, 0x34, 0x00, 0x00, 0x10, 0x00, 0x80, 0x00, 0x00, 0x80,
                0x5F, 0x9B, 0x34, 0xFB] },
     by decide, rfl, by decide, by decide⟩⟩

/-- C15 (evaluation at the failing input): after the accepted row with key
`00001234` and label `X` is inserted, `print_bluetooth_uuid` with no built-in
name answers `Unknown`, not `X`, both for the identifier of the key text and for
the identifier of the wire bytes `34 12 00 00`; with the key
`7905f431-b5ce-4e99-a40f-4b1e122d00d0` of the specification the label is
found. -/
theorem C15_reduced_key_is_not_found :
    (∃ tree c w,
      upsert [] ⟨some "00001234", some "X", false⟩ = some tree ∧
      get_bluetooth_uuid_from_str (some "00001234") = some c ∧
      get_bluetooth_uuid [0x34, 0x12, 0x00, 0x00] 0 4 = some w ∧
      print_bluetooth_uuid (fun _ => none) tree c = some "Unknown" ∧
      print_bluetooth_uuid (fun _ => none) tree w = some "Unknown") ∧
    (∃ tree c,
      upsert [] ⟨some "7905f431-b5ce-4e99-a40f-4b1e122d00d0", some "Custom Service", false⟩ =
        some tree ∧
      get_bluetooth_uuid_from_str (some "7905f431-b5ce-4e99-a40f-4b1e122d00d0") = some c ∧
      print_bluetooth_uuid (fun _ => none) tree c = some "Custom Service") :=
  ⟨⟨[("00001234", ⟨some "00001234", some "X", false⟩)],
     { bt_uuid := 0x1234, size := 2, data := [0x12, 0x34, 0x12, 0x34, 0, 0, 0, 0, 0, 0, 0, 0, 0, 0, 0, 0] },
     { bt_uuid := 0x1234, size := 2, data := [0x00, 0x00, 0x12, 0x34, 0, 0, 0, 0, 0, 0, 0, 0, 0, 0, 0, 0] },
     by decide, by decide, by decide, by decide, by decide⟩,
   ⟨[("7905f431-b5ce-4e99-a40f-4b1e122d00d0",
       ⟨some "7905f431-b5ce-4e99-a40f-4b1e122d00d0", some "Custom Service", false⟩)],
     { bt_uuid := 0, size := 16,
       data := [0x79, 0x05, 0xF4, 0x31, 0xB5, 0xCE, 0x4E, 0x99, 0xA4, 0x0F, 0x4B, 0x1E,
                0x12, 0x2D, 0x00, 0xD0] },
     by decide, by decide, by decide⟩⟩

/-- C17 (evaluation at the failing input): the tree holds the key `1234` with
the label `B`, and the bytes of the stored struct, which is what `strcmp`
reads, spell `@PxUUU`. Freeing a record with key `1234` and label `@PxUUU`
removes the entry although its stored label `B` differs from the label of the
record. -/
theorem C17_free_cb_removes_despite_other_label :
    wmem_tree_lookup_string [("1234", ⟨some "1234", some "B", false⟩)] "1234" =
        some ⟨some "1234", some "B", false⟩ ∧
      (some "B" : Option String) ≠ some "@PxUUU" ∧
      bt_uuids_free_cb (fun _ => "@PxUUU") [("1234", ⟨some "1234", some "B", false⟩)]
        ⟨some "1234", some "@PxUUU", false⟩ = some [] ∧
      bt_uuids_free_cb (fun _ => "@PxUUU") [("1234", ⟨some "1234", some "B", false⟩)]
        ⟨some "abcd", some "@PxUUU", false⟩ =
          some [("1234", ⟨some "1234", some "B", false⟩)] := by
  decide

/-- C18 (evaluation at the failing input): the tree holds the key `1234` with
the label `A`, and the bytes of the stored struct spell `@PxUUU`. Freeing the
record with key `1234` and the same label `A` leaves the entry in the tree. -/
theorem C18_free_cb_keeps_current_entry :
    wmem_tree_lookup_string [("1234", ⟨some "1234", some "A", false⟩)] "1234" =
        some ⟨some "1234", some "A", false⟩ ∧
      bt_uuids_free_cb (fun _ => "@PxUUU") [("1234", ⟨some "1234", some "A", false⟩)]
        ⟨some "1234", some "A", false⟩ =
          some [("1234", ⟨some "1234", some "A", false⟩)] := by
  decide

/-- Counterexample to C19 as stated: for the width-2 identifier `0x0000` (the
wire bytes `00 00`) and a built-in lookup that has the name `X` for the value 0,
`print_bluetooth_uuid` answers `Unknown`: the table is not consulted when
`bt_uuid` is 0. -/
theorem C19_counterexample :
    ¬ (∀ (f : Nat → Option String) (tree : wmem_tree_t) (u : bluetooth_uuid_t)
        (name : String), u.size = 2 → f u.bt_uuid = some name →
        print_bluetooth_uuid f tree u = some name) := by
  intro hall
  have e := hall (fun _ => some "X") [] { bt_uuid := 0, size := 2, data := [0, 0, 0, 0, 0, 0, 0, 0, 0, 0, 0, 0, 0, 0, 0, 0] } "X"
    rfl rfl
  exact absurd e (by decide)

/-- C19 (amended): for every identifier whose `bt_uuid` is not 0, so for every
width-2 identifier with a non-zero short value, every tree and every built-in
lookup: when the built-in lookup has a name for `bt_uuid`,
`print_bluetooth_uuid` returns exactly that name, whatever the tree holds. -/
theorem C19_builtin_name_is_authoritative (f : Nat → Option String) (tree : wmem_tree_t)
    (u : bluetooth_uuid_t) (name : String) (hnz : u.bt_uuid ≠ 0)
    (hf : f u.bt_uuid = some name) :
    print_bluetooth_uuid f tree u = some name := by
  simp [print_bluetooth_uuid, hnz, hf]

/-- Witness of C19 (amended): the short value `0x2800` with the built-in name
`Primary Service`, while the tree holds an entry for the text `2800`. -/
theorem C19_builtin_name_is_authoritative_witness :
    wmem_tree_lookup_string [("2800", ⟨some "2800", some "Mine", false⟩)] "2800" =
        some ⟨some "2800", some "Mine", false⟩ ∧
      print_bluetooth_uuid (fun v => if v = 0x2800 then some "Primary Service" else none)
        [("2800", ⟨some "2800", some "Mine", false⟩)]
        { bt_uuid := 0x2800, size := 2, data := [0x28, 0x00, 0, 0, 0, 0, 0, 0, 0, 0, 0, 0, 0, 0, 0, 0] } =
          some "Primary Service" :=
  ⟨by decide,
   C19_builtin_name_is_authoritative
     (fun v => if v = 0x2800 then some "Primary Service" else none)
     [("2800", ⟨some "2800", some "Mine", false⟩)]
     { bt_uuid := 0x2800, size := 2, data := [0x28, 0x00, 0, 0, 0, 0, 0, 0, 0, 0, 0, 0, 0, 0, 0, 0] }
     "Primary Service" (by decide) (by decide)⟩

/-- C20: for every identifier of width 2, 4 or 16 for which the built-in lookup
is not consulted or has no name, `print_bluetooth_uuid` returns the label of the
entry stored under the key `print_numeric_bluetooth_uuid(identifier)` when there
is one, and `Unknown` when there is none. -/
theorem C20_custom_label_or_unknown (f : Nat → Option String) (tree : wmem_tree_t)
    (u : bluetooth_uuid_t) (hw : u.size = 2 ∨ u.size = 4 ∨ u.size = 16)
    (hmiss : u.bt_uuid = 0 ∨ f u.bt_uuid = none) :
    ∃ key, print_numeric_bluetooth_uuid (some u) = some key ∧
      (∀ v l, wmem_tree_lookup_string tree key = some v → v.label = some l →
        print_bluetooth_uuid f tree u = some l) ∧
      (wmem_tree_lookup_string tree key = none →
        print_bluetooth_uuid f tree u = some "Unknown") := by
  obtain ⟨key, hkey⟩ := print_numeric_some u (by omega)
  refine ⟨key, hkey, ?_, ?_⟩
  · intro v l hv hl
    rw [print_bluetooth_uuid_custom f tree u hmiss]
    simp [bluetooth_get_custom_uuid_description, hkey, hv, hl]
  · intro hn
    rw [print_bluetooth_uuid_custom f tree u hmiss]
    simp [bluetooth_get_custom_uuid_description, hkey, hn]

/-- Witness of C20: the width-2 identifier `0xA1B2` with no built-in name and no
entry for `a1b2` gives `Unknown`. -/
theorem C20_custom_label_or_unknown_witness :
    print_bluetooth_uuid (fun _ => none) []
        { bt_uuid := 0xA1B2, size := 2, data := [0xA1, 0xB2, 0, 0, 0, 0, 0, 0, 0, 0, 0, 0, 0, 0, 0, 0] } = some "Unknown" ∧
      print_numeric_bluetooth_uuid
        (some { bt_uuid := 0xA1B2, size := 2, data := [0xA1, 0xB2, 0, 0, 0, 0, 0, 0, 0, 0, 0, 0, 0, 0, 0, 0] }) = some "a1b2" ∧
      ∃ key, print_numeric_bluetooth_uuid
          (some { bt_uuid := 0xA1B2, size := 2, data := [0xA1, 0xB2, 0, 0, 0, 0, 0, 0, 0, 0, 0, 0, 0, 0, 0, 0] }) = some key ∧
        (∀ v l, wmem_tree_lookup_string [] key = some v → v.label = some l →
          print_bluetooth_uuid (fun _ => none) []
            { bt_uuid := 0xA1B2, size := 2, data := [0xA1, 0xB2, 0, 0, 0, 0, 0, 0, 0, 0, 0, 0, 0, 0, 0, 0] } = some l) ∧
        (wmem_tree_lookup_string [] key = none →
          print_bluetooth_uuid (fun _ => none) []
            { bt_uuid := 0xA1B2, size := 2, data := [0xA1, 0xB2, 0, 0, 0, 0, 0, 0, 0, 0, 0, 0, 0, 0, 0, 0] } = some "Unknown") :=
  ⟨by decide, by decide,
   C20_custom_label_or_unknown (fun _ => none) []
     { bt_uuid := 0xA1B2, size := 2, data := [0xA1, 0xB2, 0, 0, 0, 0, 0, 0, 0, 0, 0, 0, 0, 0, 0, 0] }
     (Or.inl rfl) (Or.inr rfl)⟩

/-! ## Hexadecimal digits -/

theorem char_le_iff (a b : Char) : a ≤ b ↔ a.toNat ≤ b.toNat := Iff.rfl

theorem xdigit_mem (c : Char) (h : g_ascii_isxdigit c = true) :
    c ∈ "0123456789abcdefABCDEF".data := by
  have hb : (48 ≤ c.toNat ∧ c.toNat ≤ 57) ∨ (97 ≤ c.toNat ∧ c.toNat ≤ 102) ∨
      (65 ≤ c.toNat ∧ c.toNat ≤ 70) := by
    simp only [g_ascii_isxdigit, Bool.or_eq_true, Bool.and_eq_true, decide_eq_true_eq,
      char_le_iff] at h
    rcases h with (h | h) | h
    · exact Or.inl h
    · exact Or.inr (Or.inl h)
    · exact Or.inr (Or.inr h)
  have hc : c = Char.ofNat c.toNat := (Char.ofNat_toNat c).symm
  generalize c.toNat = n at hb hc
  subst hc
  rcases hb with ⟨h1, h2⟩ | ⟨h1, h2⟩ | ⟨h1, h2⟩ <;> interval_cases n <;> decide

theorem xdigit_all (P : Char → Prop)
    (hP : ∀ c ∈ "0123456789abcdefABCDEF".data, P c)
    (c : Char) (h : g_ascii_isxdigit c = true) : P c :=
  hP c (xdigit_mem c h)

theorem xdigit_ne_hyphen (c : Char) (h : g_ascii_isxdigit c = true) : c ≠ '-' :=
  xdigit_all (fun c => c ≠ '-') (by decide) c h

theorem xdigit_value_lt (c : Char) (h : g_ascii_isxdigit c = true) : xdigit_value c < 16 :=
  xdigit_all (fun c => xdigit_value c < 16) (by decide) c h

theorem low_nibble_xdigit (c : Char) (h : g_ascii_isxdigit c = true) :
    low_nibble_of_octet_to_hex (xdigit_value c) = g_ascii_tolower c :=
  xdigit_all (fun c => low_nibble_of_octet_to_hex (xdigit_value c) = g_ascii_tolower c)
    (by decide) c h

theorem strtoul16_pair (a b : Char) (ha : g_ascii_isxdigit a = true)
    (hb : g_ascii_isxdigit b = true) :
    strtoul16 [a, b] % 256 = xdigit_value a * 16 + xdigit_value b := by
  have la := xdigit_value_lt a ha
  have lb := xdigit_value_lt b hb
  simp only [strtoul16, List.takeWhile, ha, hb, List.foldl]
  omega

/-- The two digits that print a decoded pair are the lowercased digits of the
pair. -/
theorem hex_of_pair (a b : Char) (ha : g_ascii_isxdigit a = true)
    (hb : g_ascii_isxdigit b = true) :
    low_nibble_of_octet_to_hex ((xdigit_value a * 16 + xdigit_value b) / 16) =
        g_ascii_tolower a ∧
      low_nibble_of_octet_to_hex (xdigit_value a * 16 + xdigit_value b) =
        g_ascii_tolower b := by
  have la := xdigit_value_lt a ha
  have lb := xdigit_value_lt b hb
  have e1 : (xdigit_value a * 16 + xdigit_value b) / 16 = xdigit_value a := by omega
  have e2 : low_nibble_of_octet_to_hex (xdigit_value a * 16 + xdigit_value b) =
      low_nibble_of_octet_to_hex (xdigit_value b) := by
    unfold low_nibble_of_octet_to_hex
    congr 1
    omega
  rw [e1, e2]
  exact ⟨low_nibble_xdigit a ha, low_nibble_xdigit b hb⟩

/-! ## The decode loop on a validated string -/

theorem decode_loop_fst (str : List Char) (n : Nat) :
    ∀ (i p : Nat) (data : List Nat),
      (decode_loop str n i p data).1 = (decode_steps str n p).2 := by
  induction n with
  | zero => intro i p data; rfl
  | succ n ih =>
    intro i p data
    simp only [decode_loop, decode_steps]
    exact ih _ _ _

theorem strtoul16_at (str : List Char) (q : Nat)
    (h0 : g_ascii_isxdigit (chr str q) = true)
    (h1 : g_ascii_isxdigit (chr str (q + 1)) = true) :
    strtoul16 [chr str q, chr str (q + 1)] % 256 = hex_pair_at str q :=
  strtoul16_pair _ _ h0 h1

/-- The decode loop on a string that matches the 36-character template: the 16
pairs are stored in order, the hyphens are met at the head of the iterations at
8, 13, 18 and 23, and the loop ends at position 36. -/
theorem decode_loop_template (str : List Char)
    (hv : ∀ i, i < 36 →
      if i = 8 ∨ i = 13 ∨ i = 18 ∨ i = 23 then chr str i = '-'
      else g_ascii_isxdigit (chr str i) = true) :
    decode_loop str 16 0 0 uuid_zero.data =
        (36, [hex_pair_at str 0, hex_pair_at str 2, hex_pair_at str 4, hex_pair_at str 6,
              hex_pair_at str 9, hex_pair_at str 11, hex_pair_at str 14, hex_pair_at str 16,
              hex_pair_at str 19, hex_pair_at str 21, hex_pair_at str 24, hex_pair_at str 26,
              hex_pair_at str 28, hex_pair_at str 30, hex_pair_at str 32,
              hex_pair_at str 34]) ∧
      decode_steps str 16 0 =
        ([(0, 0), (2, 2), (4, 4), (6, 6), (8, 9), (11, 11), (13, 14), (16, 16), (18, 19),
          (21, 21), (23, 24), (26, 26), (28, 28), (30, 30), (32, 32), (34, 34)], 36) := by
  have hx : ∀ j, j < 36 → ¬ (j = 8 ∨ j = 13 ∨ j = 18 ∨ j = 23) →
      g_ascii_isxdigit (chr str j) = true := by
    intro j hj hsp
    have := hv j hj
    rwa [if_neg hsp] at this
  have hs : ∀ j, j = 8 ∨ j = 13 ∨ j = 18 ∨ j = 23 → chr str j = '-' := by
    intro j hsp
    have := hv j (by omega)
    rwa [if_pos hsp] at this
  have hn : ∀ j, j < 36 → ¬ (j = 8 ∨ j = 13 ∨ j = 18 ∨ j = 23) →
      (chr str j = '-') = False := by
    intro j hj hsp
    exact eq_false (xdigit_ne_hyphen _ (hx j hj hsp))
  have hp : ∀ j, j < 35 → ¬ (j = 8 ∨ j = 13 ∨ j = 18 ∨ j = 23) →
      ¬ (j + 1 = 8 ∨ j + 1 = 13 ∨ j + 1 = 18 ∨ j + 1 = 23) →
      strtoul16 [chr str j, chr str (j + 1)] % 256 = hex_pair_at str j := by
    intro j hj h0 h1
    exact strtoul16_at str j (hx j (by omega) h0) (hx (j + 1) (by omega) h1)
  have s8 := hs 8 (by decide)
  have s13 := hs 13 (by decide)
  have s18 := hs 18 (by decide)
  have s23 := hs 23 (by decide)
  have n0 := hn 0 (by decide) (by decide)
  have n2 := hn 2 (by decide) (by decide)
  have n4 := hn 4 (by decide) (by decide)
  have n6 := hn 6 (by decide) (by decide)
  have n11 := hn 11 (by decide) (by decide)
  have n16 := hn 16 (by decide) (by decide)
  have n21 := hn 21 (by decide) (by decide)
  have n26 := hn 26 (by decide) (by decide)
  have n28 := hn 28 (by decide) (by decide)
  have n30 := hn 30 (by decide) (by decide)
  have n32 := hn 32 (by decide) (by decide)
  have n34 := hn 34 (by decide) (by decide)
  have p0 := hp 0 (by decide) (by decide) (by decide)
  have p2 := hp 2 (by decide) (by decide) (by decide)
  have p4 := hp 4 (by decide) (by decide) (by decide)
  have p6 := hp 6 (by decide) (by decide) (by decide)
  have p9 := hp 9 (by decide) (by decide) (by decide)
  have p11 := hp 11 (by decide) (by decide) (by decide)
  have p14 := hp 14 (by decide) (by decide) (by decide)
  have p16 := hp 16 (by decide) (by decide) (by decide)
  have p19 := hp 19 (by decide) (by decide) (by decide)
  have p21 := hp 21 (by decide) (by decide) (by decide)
  have p24 := hp 24 (by decide) (by decide) (by decide)
  have p26 := hp 26 (by decide) (by decide) (by decide)
  have p28 := hp 28 (by decide) (by decide) (by decide)
  have p30 := hp 30 (by decide) (by decide) (by decide)
  have p32 := hp 32 (by decide) (by decide) (by decide)
  have p34 := hp 34 (by decide) (by decide) (by decide)
  simp only [Nat.reduceAdd] at p0 p2 p4 p6 p9 p11 p14 p16 p19 p21 p24 p26 p28 p30 p32 p34
  constructor
  · simp only [decode_loop, uuid_zero, s8, s13, s18, s23, n0, n2, n4, n6, n11, n16, n21,
      n26, n28, n30, n32, n34, if_true, if_false, Nat.reduceAdd, p0, p2, p4, p6, p9, p11,
      p14, p16, p19, p21, p24, p26, p28, p30, p32, p34, List.set_cons_zero,
      List.set_cons_succ]
  · simp only [decode_steps, s8, s13, s18, s23, n0, n2, n4, n6, n11, n16, n21,
      n26, n28, n30, n32, n34, if_true, if_false, Nat.reduceAdd]

theorem decode_loop_four (str : List Char)
    (hv : ∀ i, i < 4 → g_ascii_isxdigit (chr str i) = true) :
    decode_loop str 2 0 0 uuid_zero.data =
        (4, [hex_pair_at str 0, hex_pair_at str 2, 0, 0, 0, 0, 0, 0, 0, 0, 0, 0, 0, 0, 0, 0]) ∧
      decode_steps str 2 0 = ([(0, 0), (2, 2)], 4) := by
  have n0 : (chr str 0 = '-') = False := eq_false (xdigit_ne_hyphen _ (hv 0 (by decide)))
  have n2 : (chr str 2 = '-') = False := eq_false (xdigit_ne_hyphen _ (hv 2 (by decide)))
  have p0 := strtoul16_at str 0 (hv 0 (by decide)) (hv 1 (by decide))
  have p2 := strtoul16_at str 2 (hv 2 (by decide)) (hv 3 (by decide))
  simp only [Nat.reduceAdd] at p0 p2
  constructor
  · simp only [decode_loop, uuid_zero, n0, n2, if_false, Nat.reduceAdd, p0, p2,
      List.set_cons_zero, List.set_cons_succ]
  · simp only [decode_steps, n0, n2, if_false, Nat.reduceAdd]

theorem decode_loop_eight (str : List Char)
    (hv : ∀ i, i < 8 → g_ascii_isxdigit (chr str i) = true) :
    decode_loop str 4 0 0 uuid_zero.data =
        (8, [hex_pair_at str 0, hex_pair_at str 2, hex_pair_at str 4, hex_pair_at str 6,
             0, 0, 0, 0, 0, 0, 0, 0, 0, 0, 0, 0]) ∧
      decode_steps str 4 0 = ([(0, 0), (2, 2), (4, 4), (6, 6)], 8) := by
  have n0 : (chr str 0 = '-') = False := eq_false (xdigit_ne_hyphen _ (hv 0 (by decide)))
  have n2 : (chr str 2 = '-') = False := eq_false (xdigit_ne_hyphen _ (hv 2 (by decide)))
  have n4 : (chr str 4 = '-') = False := eq_false (xdigit_ne_hyphen _ (hv 4 (by decide)))
  have n6 : (chr str 6 = '-') = False := eq_false (xdigit_ne_hyphen _ (hv 6 (by decide)))
  have p0 := strtoul16_at str 0 (hv 0 (by decide)) (hv 1 (by decide))
  have p2 := strtoul16_at str 2 (hv 2 (by decide)) (hv 3 (by decide))
  have p4 := strtoul16_at str 4 (hv 4 (by decide)) (hv 5 (by decide))
  have p6 := strtoul16_at str 6 (hv 6 (by decide)) (hv 7 (by decide))
  simp only [Nat.reduceAdd] at p0 p2 p4 p6
  constructor
  · simp only [decode_loop, uuid_zero, n0, n2, n4, n6, if_false, Nat.reduceAdd, p0, p2, p4,
      p6, List.set_cons_zero, List.set_cons_succ]
  · simp only [decode_steps, n0, n2, n4, n6, if_false, Nat.reduceAdd]

theorem xdigit_value_le (c : Char) : xdigit_value c ≤ 15 := by
  have e0 : '0'.toNat = 48 := rfl
  have e9 : '9'.toNat = 57 := rfl
  have ea : 'a'.toNat = 97 := rfl
  have ef : 'f'.toNat = 102 := rfl
  have eA : 'A'.toNat = 65 := rfl
  have eF : 'F'.toNat = 70 := rfl
  unfold xdigit_value
  simp only [char_le_iff]
  split_ifs <;> omega

theorem hex_pair_at_lt (s : List Char) (q : Nat) : hex_pair_at s q < 256 := by
  have h0 := xdigit_value_le (chr s q)
  have h1 := xdigit_value_le (chr s (q + 1))
  unfold hex_pair_at
  omega

/-- The text forms, one statement per length, from the validation loop. -/
theorem fmt_loop_digits (s : String) (hl : s.length = 4 ∨ s.length = 8)
    (hf : fmt_loop s.data s.length = true) :
    ∀ i, i < s.length → g_ascii_isxdigit (chr s.data i) = true :=
  (fmt_loop_short s.data s.length (by omega)).mp hf

theorem decoded_four (s : String) (hl : s.length = 4)
    (hf : fmt_loop s.data s.length = true) :
    decoded s 2 = [hex_pair_at s.data 0, hex_pair_at s.data 2, 0, 0, 0, 0, 0, 0, 0, 0, 0, 0, 0, 0, 0, 0] := by
  have hv := fmt_loop_digits s (Or.inl hl) hf
  rw [hl] at hv
  unfold decoded
  rw [(decode_loop_four s.data hv).1]

theorem decoded_eight (s : String) (hl : s.length = 8)
    (hf : fmt_loop s.data s.length = true) :
    decoded s 4 =
      [hex_pair_at s.data 0, hex_pair_at s.data 2, hex_pair_at s.data 4,
       hex_pair_at s.data 6, 0, 0, 0, 0, 0, 0, 0, 0, 0, 0, 0, 0] := by
  have hv := fmt_loop_digits s (Or.inr hl) hf
  rw [hl] at hv
  unfold decoded
  rw [(decode_loop_eight s.data hv).1]

theorem decoded_thirtysix (s : String) (hl : s.length = 36)
    (hf : fmt_loop s.data s.length = true) :
    decoded s 16 =
      [hex_pair_at s.data 0, hex_pair_at s.data 2, hex_pair_at s.data 4,
       hex_pair_at s.data 6, hex_pair_at s.data 9, hex_pair_at s.data 11,
       hex_pair_at s.data 14, hex_pair_at s.data 16, hex_pair_at s.data 19,
       hex_pair_at s.data 21, hex_pair_at s.data 24, hex_pair_at s.data 26,
       hex_pair_at s.data 28, hex_pair_at s.data 30, hex_pair_at s.data 32,
       hex_pair_at s.data 34] := by
  rw [hl] at hf
  have hv := (fmt_loop_long s.data).mp hf
  unfold decoded
  rw [(decode_loop_template s.data hv).1]

theorem text_bytes_four (s : List Char) (hl : s.length = 4) :
    text_bytes s = [hex_pair_at s 0, hex_pair_at s 2] := by
  simp [text_bytes, hl, List.range_succ]

theorem text_bytes_eight (s : List Char) (hl : s.length = 8) :
    text_bytes s = [hex_pair_at s 0, hex_pair_at s 2, hex_pair_at s 4, hex_pair_at s 6] := by
  simp [text_bytes, hl, List.range_succ]

theorem text_bytes_thirtysix (s : List Char) (hl : s.length = 36) :
    text_bytes s =
      [hex_pair_at s 0, hex_pair_at s 2, hex_pair_at s 4, hex_pair_at s 6,
       hex_pair_at s 9, hex_pair_at s 11, hex_pair_at s 14, hex_pair_at s 16,
       hex_pair_at s 19, hex_pair_at s 21, hex_pair_at s 24, hex_pair_at s 26,
       hex_pair_at s 28, hex_pair_at s 30, hex_pair_at s 32, hex_pair_at s 34] := by
  simp [text_bytes, hl, List.range_succ, text_pos]

/-! ## Simplified closed forms of `get_bluetooth_uuid_from_str` -/

theorem rd_set_set (data : List Nat) (a b : Nat) (h : 2 ≤ data.length) :
    rd ((data.set 0 a).set 1 b) 0 = a ∧ rd ((data.set 0 a).set 1 b) 1 = b := by
  match data, h with
  | x :: y :: rest, _ => exact ⟨rfl, rfl⟩

/-- The result for eight hexadecimal digits, with the short value spelled out. -/
theorem from_str_eight_bt (s : String) (hl : s.length = 8)
    (hf : fmt_loop s.data s.length = true) :
    get_bluetooth_uuid_from_str (some s) =
      some (if rd (decoded s 4) 0 = 0 ∧ rd (decoded s 4) 1 = 0 then
              { bt_uuid := mk16 (rd (decoded s 4) 3) (rd (decoded s 4) 2), size := 2,
                data := ((decoded s 4).set 0 (rd (decoded s 4) 2)).set 1 (rd (decoded s 4) 3) }
            else
              { bt_uuid := 0, size := 4, data := decoded s 4 }) := by
  rw [from_str_eight s hl hf]
  have e := rd_set_set (decoded s 4) (rd (decoded s 4) 2) (rd (decoded s 4) 3)
    (by rw [decoded_length]; decide)
  rw [e.1, e.2]

/-- The result for a 36-character text, with the short value spelled out. -/
theorem from_str_thirtysix_bt (s : String) (hl : s.length = 36)
    (hf : fmt_loop s.data s.length = true) :
    get_bluetooth_uuid_from_str (some s) =
      some (if is_base_uuid16 (decoded s 16) = true then
              { bt_uuid := mk16 (rd (decoded s 16) 3) (rd (decoded s 16) 2), size := 2,
                data :=
                  ((decoded s 16).set 0 (rd (decoded s 16) 2)).set 1 (rd (decoded s 16) 3) }
            else
              { bt_uuid := 0, size := 16, data := decoded s 16 }) := by
  rw [from_str_thirtysix s hl hf]
  have e := rd_set_set (decoded s 16) (rd (decoded s 16) 2) (rd (decoded s 16) 3)
    (by rw [decoded_length]; decide)
  rw [e.1, e.2]

theorem decoded_eq_text_bytes (s : String) (hl : s.length = 36)
    (hf : fmt_loop s.data s.length = true) : decoded s 16 = text_bytes s.data := by
  rw [decoded_thirtysix s hl hf, text_bytes_thirtysix s.data hl]

/-! ## Claims on the exact reduction rule and on the agreement of the entry points -/

/-- C24: `get_bluetooth_uuid` on a 16-byte wire input and
`get_bluetooth_uuid_from_str` on an accepted 36-character text return width 2 if
and only if bytes 0 and 1 of the unreduced 16-byte form are zero and its bytes
4..15 equal the Base Pattern, then with `bt_uuid = byte2 << 8 | byte3`; in every
other case the width stays 16 and `bt_uuid` is 0. -/
theorem C24_exact_reduction_rule (tvb : tvbuff_t) (offset : Nat) (s : String)
    (h : offset + 16 ≤ tvb.length) (hl : s.length = 36) (hw : text_well_formed s.data) :
    (∃ u, get_bluetooth_uuid tvb offset 16 = some u ∧ reduction_rule (rev16 tvb offset) u) ∧
    (∃ u, get_bluetooth_uuid_from_str (some s) = some u ∧
      reduction_rule (text_bytes s.data) u) := by
  constructor
  · have e := get_bluetooth_uuid_sixteen tvb offset h
    have hiff := is_base_uuid16_iff (rev16 tvb offset) (rev16_length tvb offset)
    by_cases hb : is_base_uuid16 (rev16 tvb offset) = true
    · rw [if_pos hb] at e
      refine ⟨_, e, ⟨fun _ => hiff.mp hb, fun _ => rfl⟩, fun _ => ?_, fun hn => absurd rfl hn⟩
      exact mk16_eq _ _ (wire_lt tvb offset 12) (wire_lt tvb offset 13)
    · rw [if_neg hb] at e
      refine ⟨_, e, ⟨fun hs => ?_, fun hr => absurd (hiff.mpr hr) hb⟩, fun hs => ?_,
        fun _ => ⟨rfl, rfl⟩⟩
      · simp at hs
      · simp at hs
  · have hf := ((text_well_formed_iff s).mp hw).2
    have e := from_str_thirtysix_bt s hl hf
    have hD := decoded_eq_text_bytes s hl hf
    have hiff := is_base_uuid16_iff (decoded s 16) (decoded_length s 16)
    by_cases hb : is_base_uuid16 (decoded s 16) = true
    · rw [if_pos hb] at e
      refine ⟨_, e, ⟨fun _ => ?_, fun _ => rfl⟩, fun _ => ?_, fun hn => absurd rfl hn⟩
      · rw [← hD]
        exact hiff.mp hb
      · rw [← hD]
        exact mk16_eq _ _ (decoded_lt s 16 3) (decoded_lt s 16 2)
    · rw [if_neg hb] at e
      refine ⟨_, e, ⟨fun hs => ?_, fun hr => ?_⟩, fun hs => ?_, fun _ => ⟨rfl, rfl⟩⟩
      · simp at hs
      · rw [← hD] at hr
        exact absurd (hiff.mpr hr) hb
      · simp at hs

/-- Witness of C24: the wire bytes and the text of
`00001234-0000-1000-8000-00805f9b34fb`. -/
theorem C24_exact_reduction_rule_witness :
    (∃ u, get_bluetooth_uuid
        [0xFB, 0x34, 0x9B, 0x5F, 0x80, 0x00, 0x00, 0x80, 0x00, 0x10, 0x00, 0x00,
         0x34, 0x12, 0x00, 0x00] 0 16 = some u ∧
      reduction_rule
        (rev16 [0xFB, 0x34, 0x9B, 0x5F, 0x80, 0x00, 0x00, 0x80, 0x00, 0x10, 0x00, 0x00,
                0x34, 0x12, 0x00, 0x00] 0) u) ∧
    (∃ u, get_bluetooth_uuid_from_str (some "00001234-0000-1000-8000-00805f9b34fb") = some u ∧
      reduction_rule (text_bytes "00001234-0000-1000-8000-00805f9b34fb".data) u) :=
  C24_exact_reduction_rule
    [0xFB, 0x34, 0x9B, 0x5F, 0x80, 0x00, 0x00, 0x80, 0x00, 0x10, 0x00, 0x00,
     0x34, 0x12, 0x00, 0x00] 0 "00001234-0000-1000-8000-00805f9b34fb"
    (by decide) (by decide)
    ((text_well_formed_iff _).mpr ⟨by decide, by decide⟩)

theorem get_of_bytes_two (a b : Nat) (ha : a < 256) (hb : b < 256) :
    get_bluetooth_uuid [b, a] 0 2 =
      some { bt_uuid := mk16 b a, size := 2, data := [a, b, 0, 0, 0, 0, 0, 0, 0, 0, 0, 0, 0, 0, 0, 0] } := by
  rw [get_bluetooth_uuid_two [b, a] 0 (by simp)]
  simp [wire, Nat.mod_eq_of_lt ha, Nat.mod_eq_of_lt hb]

theorem get_of_bytes_four (a b c d : Nat) (ha : a < 256) (hb : b < 256) (hc : c < 256)
    (hd : d < 256) :
    get_bluetooth_uuid [d, c, b, a] 0 4 =
      some (if a = 0 ∧ b = 0 then
              { bt_uuid := mk16 d c, size := 2, data := [a, b, c, d, 0, 0, 0, 0, 0, 0, 0, 0, 0, 0, 0, 0] }
            else
              { bt_uuid := 0, size := 4, data := [a, b, c, d, 0, 0, 0, 0, 0, 0, 0, 0, 0, 0, 0, 0] }) := by
  rw [get_bluetooth_uuid_four [d, c, b, a] 0 (by simp)]
  simp [wire, Nat.mod_eq_of_lt ha, Nat.mod_eq_of_lt hb, Nat.mod_eq_of_lt hc,
    Nat.mod_eq_of_lt hd]

theorem get_of_bytes_sixteen (l : List Nat) (hl : l.length = 16) (hlt : ∀ x ∈ l, x < 256) :
    get_bluetooth_uuid l.reverse 0 16 =
      some (if is_base_uuid16 l = true then
              { bt_uuid := mk16 (rd l 3) (rd l 2), size := 2, data := l }
            else
              { bt_uuid := 0, size := 16, data := l }) := by
  match l, hl with
  | [a0, a1, a2, a3, a4, a5, a6, a7, a8, a9, a10, a11, a12, a13, a14, a15], _ =>
    have e : rev16 [a0, a1, a2, a3, a4, a5, a6, a7, a8, a9, a10, a11, a12, a13, a14,
        a15].reverse 0 =
        [a0, a1, a2, a3, a4, a5, a6, a7, a8, a9, a10, a11, a12, a13, a14, a15] := by
      simp only [List.mem_cons, List.mem_singleton, forall_eq_or_imp, forall_eq,
        List.not_mem_nil, false_implies, implies_true, and_true] at hlt
      obtain ⟨h0, h1, h2, h3, h4, h5, h6, h7, h8, h9, h10, h11, h12, h13, h14, h15⟩ := hlt
      simp [rev16, wire, Nat.mod_eq_of_lt, h0, h1, h2, h3, h4, h5, h6, h7, h8, h9, h10, h11,
        h12, h13, h14, h15]
    have e3 : wire [a0, a1, a2, a3, a4, a5, a6, a7, a8, a9, a10, a11, a12, a13, a14,
        a15].reverse 0 12 = a3 := by
      have := congrArg (fun d => rd d 3) e
      simpa [rev16, rd] using this
    have e2 : wire [a0, a1, a2, a3, a4, a5, a6, a7, a8, a9, a10, a11, a12, a13, a14,
        a15].reverse 0 13 = a2 := by
      have := congrArg (fun d => rd d 2) e
      simpa [rev16, rd] using this
    rw [get_bluetooth_uuid_sixteen _ 0 (by simp), e, e3, e2]
    rfl

/-- C25: for every byte sequence `b` of length 2, 4 or 16 and every text form
`s` of `b` (an accepted text whose digit pairs are the bytes of `b`, in either
letter case), `get_bluetooth_uuid_from_str` on `s` and `get_bluetooth_uuid` on
the reversed bytes of `b` return the same width and the same `bt_uuid`, reduced
or not. -/
theorem C25_text_and_wire_same_width_and_short_value (b : List Nat) (s : String)
    (hw : text_well_formed s.data) (hb : text_bytes s.data = b) :
    ∃ u v, get_bluetooth_uuid_from_str (some s) = some u ∧
      get_bluetooth_uuid b.reverse 0 (b.length : Int) = some v ∧
      u.size = v.size ∧ u.bt_uuid = v.bt_uuid ∧
      (b.length = 2 ∨ b.length = 4 ∨ b.length = 16) := by
  subst hb
  obtain ⟨hl, hf⟩ := (text_well_formed_iff s).mp hw
  rcases hl with h4 | h8 | h36
  · have e1 := from_str_four s h4 hf
    rw [decoded_four s h4 hf] at e1
    have e2 := get_of_bytes_two (hex_pair_at s.data 0) (hex_pair_at s.data 2)
      (hex_pair_at_lt _ _) (hex_pair_at_lt _ _)
    rw [text_bytes_four s.data h4]
    exact ⟨_, _, e1, e2, rfl, rfl, Or.inl rfl⟩
  · have e1 := from_str_eight_bt s h8 hf
    rw [decoded_eight s h8 hf] at e1
    have e2 := get_of_bytes_four (hex_pair_at s.data 0) (hex_pair_at s.data 2)
      (hex_pair_at s.data 4) (hex_pair_at s.data 6)
      (hex_pair_at_lt _ _) (hex_pair_at_lt _ _) (hex_pair_at_lt _ _) (hex_pair_at_lt _ _)
    rw [text_bytes_eight s.data h8]
    by_cases hc : hex_pair_at s.data 0 = 0 ∧ hex_pair_at s.data 2 = 0
    · rw [if_pos hc] at e2
      rw [if_pos (by simpa [rd] using hc)] at e1
      exact ⟨_, _, e1, e2, rfl, rfl, Or.inr (Or.inl rfl)⟩
    · rw [if_neg hc] at e2
      rw [if_neg (by simpa [rd] using hc)] at e1
      exact ⟨_, _, e1, e2, rfl, rfl, Or.inr (Or.inl rfl)⟩
  · have e1 := from_str_thirtysix_bt s h36 hf
    have hD := decoded_eq_text_bytes s h36 hf
    rw [hD] at e1
    have hlen : (text_bytes s.data).length = 16 := by rw [← hD]; exact decoded_length s 16
    have hlt : ∀ x ∈ text_bytes s.data, x < 256 := by
      rw [text_bytes_thirtysix s.data h36]
      intro x hx
      simp only [List.mem_cons, List.mem_singleton, List.not_mem_nil, or_false] at hx
      rcases hx with rfl | rfl | rfl | rfl | rfl | rfl | rfl | rfl | rfl | rfl | rfl | rfl |
        rfl | rfl | rfl | rfl <;> exact hex_pair_at_lt _ _
    have e2 := get_of_bytes_sixteen (text_bytes s.data) hlen hlt
    rw [hlen]
    by_cases hc : is_base_uuid16 (text_bytes s.data) = true
    · rw [if_pos hc] at e1 e2
      exact ⟨_, _, e1, e2, rfl, rfl, Or.inr (Or.inr rfl)⟩
    · rw [if_neg hc] at e1 e2
      exact ⟨_, _, e1, e2, rfl, rfl, Or.inr (Or.inr rfl)⟩

/-- Witness of C25: the bytes `00 00 AB CD` with the text `0000AbCd` and the wire
bytes `CD AB 00 00`; both results have width 2 and `bt_uuid = 0xABCD`. -/
theorem C25_text_and_wire_same_width_and_short_value_witness :
    text_bytes "0000AbCd".data = [0x00, 0x00, 0xAB, 0xCD] ∧
      get_bluetooth_uuid_from_str (some "0000AbCd") =
        some { bt_uuid := 0xABCD, size := 2, data := [0xAB, 0xCD, 0xAB, 0xCD, 0, 0, 0, 0, 0, 0, 0, 0, 0, 0, 0, 0] } ∧
      get_bluetooth_uuid [0xCD, 0xAB, 0x00, 0x00] 0 4 =
        some { bt_uuid := 0xABCD, size := 2, data := [0x00, 0x00, 0xAB, 0xCD, 0, 0, 0, 0, 0, 0, 0, 0, 0, 0, 0, 0] } ∧
      ∃ u v, get_bluetooth_uuid_from_str (some "0000AbCd") = some u ∧
        get_bluetooth_uuid ([0x00, 0x00, 0xAB, 0xCD] : List Nat).reverse 0
          ((([0x00, 0x00, 0xAB, 0xCD] : List Nat).length : Nat) : Int) = some v ∧
        u.size = v.size ∧ u.bt_uuid = v.bt_uuid ∧
        (([0x00, 0x00, 0xAB, 0xCD] : List Nat).length = 2 ∨
          ([0x00, 0x00, 0xAB, 0xCD] : List Nat).length = 4 ∨
          ([0x00, 0x00, 0xAB, 0xCD] : List Nat).length = 16) :=
  ⟨by decide, by decide, by decide,
   C25_text_and_wire_same_width_and_short_value [0x00, 0x00, 0xAB, 0xCD] "0000AbCd"
     ((text_well_formed_iff _).mpr ⟨by decide, by decide⟩) (by decide)⟩

/-! ## The text of an accepted string -/

theorem map_chr_four (l : List Char) (h : l.length = 4) (f : Char → Char) :
    l.map f = [f (chr l 0), f (chr l 1), f (chr l 2), f (chr l 3)] := by
  match l, h with
  | [a0, a1, a2, a3], _ => rfl

theorem map_chr_eight (l : List Char) (h : l.length = 8) (f : Char → Char) :
    l.map f = [f (chr l 0), f (chr l 1), f (chr l 2), f (chr l 3), f (chr l 4), f (chr l 5), f (chr l 6), f (chr l 7)] := by
  match l, h with
  | [a0, a1, a2, a3, a4, a5, a6, a7], _ => rfl

theorem map_chr_thirtysix (l : List Char) (h : l.length = 36) (f : Char → Char) :
    l.map f =
      [f (chr l 0), f (chr l 1), f (chr l 2), f (chr l 3), f (chr l 4), f (chr l 5),
       f (chr l 6), f (chr l 7), f (chr l 8), f (chr l 9), f (chr l 10), f (chr l 11),
       f (chr l 12), f (chr l 13), f (chr l 14), f (chr l 15), f (chr l 16), f (chr l 17),
       f (chr l 18), f (chr l 19), f (chr l 20), f (chr l 21), f (chr l 22), f (chr l 23),
       f (chr l 24), f (chr l 25), f (chr l 26), f (chr l 27), f (chr l 28), f (chr l 29),
       f (chr l 30), f (chr l 31), f (chr l 32), f (chr l 33), f (chr l 34), f (chr l 35)] := by
  match l, h with
  | a0 :: a1 :: a2 :: a3 :: a4 :: a5 :: a6 :: a7 :: a8 :: a9 :: a10 :: a11 :: a12 :: a13 :: a14 :: a15 :: a16 :: a17 :: a18 :: a19 :: a20 :: a21 :: a22 :: a23 :: a24 :: a25 :: a26 :: a27 :: a28 :: a29 :: a30 :: a31 :: a32 :: a33 :: a34 :: a35 :: [], _ => rfl

theorem drop_take_four (l : List Char) (h : 8 ≤ l.length) (f : Char → Char) :
    ((l.drop 4).take 4).map f = [f (chr l 4), f (chr l 5), f (chr l 6), f (chr l 7)] := by
  match l, h with
  | a0 :: a1 :: a2 :: a3 :: a4 :: a5 :: a6 :: a7 :: rest, _ => rfl

/-- The two characters that print the pair at `q` are the lowercased characters
at `q` and `q + 1`. -/
theorem hex_pair_chars (s : List Char) (q : Nat)
    (h0 : g_ascii_isxdigit (chr s q) = true)
    (h1 : g_ascii_isxdigit (chr s (q + 1)) = true) :
    low_nibble_of_octet_to_hex (hex_pair_at s q / 16) = g_ascii_tolower (chr s q) ∧
      low_nibble_of_octet_to_hex (hex_pair_at s q) = g_ascii_tolower (chr s (q + 1)) :=
  hex_of_pair _ _ h0 h1

theorem print_pairs_two (s : List Char) (q0 q1 : Nat) (rest : List Nat) (bt sz : Nat)
    (hsz : sz = 2)
    (h0 : g_ascii_isxdigit (chr s q0) = true) (h0' : g_ascii_isxdigit (chr s (q0 + 1)) = true)
    (h1 : g_ascii_isxdigit (chr s q1) = true) (h1' : g_ascii_isxdigit (chr s (q1 + 1)) = true) :
    print_numeric_bluetooth_uuid
        (some { bt_uuid := bt, size := sz,
                data := hex_pair_at s q0 :: hex_pair_at s q1 :: rest }) =
      some (String.mk [g_ascii_tolower (chr s q0), g_ascii_tolower (chr s (q0 + 1)),
        g_ascii_tolower (chr s q1), g_ascii_tolower (chr s (q1 + 1))]) := by
  subst hsz
  rw [print_numeric_short _ (by simp) (by simp)]
  dsimp only
  rw [bytes_to_hexstr_two]
  have e0 : rd (hex_pair_at s q0 :: hex_pair_at s q1 :: rest) 0 = hex_pair_at s q0 := rfl
  have e1 : rd (hex_pair_at s q0 :: hex_pair_at s q1 :: rest) 1 = hex_pair_at s q1 := rfl
  rw [e0, e1, (hex_pair_chars s q0 h0 h0').1, (hex_pair_chars s q0 h0 h0').2,
    (hex_pair_chars s q1 h1 h1').1, (hex_pair_chars s q1 h1 h1').2]

theorem print_pairs_four (s : List Char) (rest : List Nat)
    (hv : ∀ i, i < 8 → g_ascii_isxdigit (chr s i) = true) :
    print_numeric_bluetooth_uuid
        (some { bt_uuid := 0, size := 4,
                data := hex_pair_at s 0 :: hex_pair_at s 2 :: hex_pair_at s 4 ::
                  hex_pair_at s 6 :: rest }) =
      some (String.mk [g_ascii_tolower (chr s 0), g_ascii_tolower (chr s 1),
        g_ascii_tolower (chr s 2), g_ascii_tolower (chr s 3), g_ascii_tolower (chr s 4),
        g_ascii_tolower (chr s 5), g_ascii_tolower (chr s 6), g_ascii_tolower (chr s 7)]) := by
  have c0 := hex_pair_chars s 0 (hv 0 (by decide)) (hv 1 (by decide))
  have c2 := hex_pair_chars s 2 (hv 2 (by decide)) (hv 3 (by decide))
  have c4 := hex_pair_chars s 4 (hv 4 (by decide)) (hv 5 (by decide))
  have c6 := hex_pair_chars s 6 (hv 6 (by decide)) (hv 7 (by decide))
  simp only [Nat.reduceAdd] at c0 c2 c4 c6
  rw [print_numeric_short _ (by simp) (by simp)]
  dsimp only
  rw [bytes_to_hexstr_four]
  simp only [rd, List.getD_cons_zero, List.getD_cons_succ, c0.1, c0.2, c2.1, c2.2, c4.1,
    c4.2, c6.1, c6.2]

theorem print_pairs_sixteen (s : List Char)
    (hv : ∀ i, i < 36 →
      if i = 8 ∨ i = 13 ∨ i = 18 ∨ i = 23 then chr s i = '-'
      else g_ascii_isxdigit (chr s i) = true) :
    print_numeric_bluetooth_uuid
        (some { bt_uuid := 0, size := 16,
                data := [hex_pair_at s 0, hex_pair_at s 2, hex_pair_at s 4, hex_pair_at s 6,
                         hex_pair_at s 9, hex_pair_at s 11, hex_pair_at s 14, hex_pair_at s 16,
                         hex_pair_at s 19, hex_pair_at s 21, hex_pair_at s 24, hex_pair_at s 26,
                         hex_pair_at s 28, hex_pair_at s 30, hex_pair_at s 32, hex_pair_at s 34] }) =
      some (String.mk
        [g_ascii_tolower (chr s 0), g_ascii_tolower (chr s 1), g_ascii_tolower (chr s 2), g_ascii_tolower (chr s 3),
         g_ascii_tolower (chr s 4), g_ascii_tolower (chr s 5), g_ascii_tolower (chr s 6), g_ascii_tolower (chr s 7),
         g_ascii_tolower (chr s 8), g_ascii_tolower (chr s 9), g_ascii_tolower (chr s 10), g_ascii_tolower (chr s 11),
         g_ascii_tolower (chr s 12), g_ascii_tolower (chr s 13), g_ascii_tolower (chr s 14), g_ascii_tolower (chr s 15),
         g_ascii_tolower (chr s 16), g_ascii_tolower (chr s 17), g_ascii_tolower (chr s 18), g_ascii_tolower (chr s 19),
         g_ascii_tolower (chr s 20), g_ascii_tolower (chr s 21), g_ascii_tolower (chr s 22), g_ascii_tolower (chr s 23),
         g_ascii_tolower (chr s 24), g_ascii_tolower (chr s 25), g_ascii_tolower (chr s 26), g_ascii_tolower (chr s 27),
         g_ascii_tolower (chr s 28), g_ascii_tolower (chr s 29), g_ascii_tolower (chr s 30), g_ascii_tolower (chr s 31),
         g_ascii_tolower (chr s 32), g_ascii_tolower (chr s 33), g_ascii_tolower (chr s 34), g_ascii_tolower (chr s 35)]) := by
  have hx : ∀ j, j < 36 → ¬ (j = 8 ∨ j = 13 ∨ j = 18 ∨ j = 23) →
      g_ascii_isxdigit (chr s j) = true := by
    intro j hj hsp
    have := hv j hj
    rwa [if_neg hsp] at this
  have c0 := hex_pair_chars s 0 (hx 0 (by decide) (by decide)) (hx (0 + 1) (by decide) (by decide))
  have c2 := hex_pair_chars s 2 (hx 2 (by decide) (by decide)) (hx (2 + 1) (by decide) (by decide))
  have c4 := hex_pair_chars s 4 (hx 4 (by decide) (by decide)) (hx (4 + 1) (by decide) (by decide))
  have c6 := hex_pair_chars s 6 (hx 6 (by decide) (by decide)) (hx (6 + 1) (by decide) (by decide))
  have c9 := hex_pair_chars s 9 (hx 9 (by decide) (by decide)) (hx (9 + 1) (by decide) (by decide))
  have c11 := hex_pair_chars s 11 (hx 11 (by decide) (by decide)) (hx (11 + 1) (by decide) (by decide))
  have c14 := hex_pair_chars s 14 (hx 14 (by decide) (by decide)) (hx (14 + 1) (by decide) (by decide))
  have c16 := hex_pair_chars s 16 (hx 16 (by decide) (by decide)) (hx (16 + 1) (by decide) (by decide))
  have c19 := hex_pair_chars s 19 (hx 19 (by decide) (by decide)) (hx (19 + 1) (by decide) (by decide))
  have c21 := hex_pair_chars s 21 (hx 21 (by decide) (by decide)) (hx (21 + 1) (by decide) (by decide))
  have c24 := hex_pair_chars s 24 (hx 24 (by decide) (by decide)) (hx (24 + 1) (by decide) (by decide))
  have c26 := hex_pair_chars s 26 (hx 26 (by decide) (by decide)) (hx (26 + 1) (by decide) (by decide))
  have c28 := hex_pair_chars s 28 (hx 28 (by decide) (by decide)) (hx (28 + 1) (by decide) (by decide))
  have c30 := hex_pair_chars s 30 (hx 30 (by decide) (by decide)) (hx (30 + 1) (by decide) (by decide))
  have c32 := hex_pair_chars s 32 (hx 32 (by decide) (by decide)) (hx (32 + 1) (by decide) (by decide))
  have c34 := hex_pair_chars s 34 (hx 34 (by decide) (by decide)) (hx (34 + 1) (by decide) (by decide))
  simp only [Nat.reduceAdd] at c0 c2 c4 c6 c9 c11 c14 c16 c19 c21 c24 c26 c28 c30 c32 c34
  have s8 : g_ascii_tolower (chr s 8) = '-' := by
    have := hv 8 (by decide)
    rw [if_pos (by decide)] at this
    rw [this]
    rfl
  have s13 : g_ascii_tolower (chr s 13) = '-' := by
    have := hv 13 (by decide)
    rw [if_pos (by decide)] at this
    rw [this]
    rfl
  have s18 : g_ascii_tolower (chr s 18) = '-' := by
    have := hv 18 (by decide)
    rw [if_pos (by decide)] at this
    rw [this]
    rfl
  have s23 : g_ascii_tolower (chr s 23) = '-' := by
    have := hv 23 (by decide)
    rw [if_pos (by decide)] at this
    rw [this]
    rfl
  rw [print_numeric_long _ rfl]
  dsimp only
  rw [bytes_to_hexstr_four, bytes_to_hexstr_two, bytes_to_hexstr_two, bytes_to_hexstr_two,
    bytes_to_hexstr_six]
  simp only [rd_drop, Nat.reduceAdd, List.cons_append, List.nil_append]
  simp only [rd, List.getD_cons_zero, List.getD_cons_succ, c0.1, c0.2, c2.1, c2.2, c4.1, c4.2, c6.1, c6.2, c9.1, c9.2, c11.1, c11.2, c14.1, c14.2, c16.1, c16.2, c19.1, c19.2, c21.1, c21.2, c24.1, c24.2, c26.1, c26.2, c28.1, c28.2, c30.1, c30.2, c32.1, c32.2, c34.1, c34.2, s8, s13, s18, s23]

theorem strdown_length (s : String) : (ascii_strdown_inplace s).length = s.length := by
  show (s.data.map g_ascii_tolower).length = s.data.length
  exact List.length_map _ _

/-- C26: for every accepted string `s`, the text of the returned identifier is
the lowercased `s` when the identifier is not reduced (width 2 from 4
characters, width 4 from 8, width 16 from 36), and the lowercased characters
4..7 of `s` when it is reduced to width 2 from 8 or 36 characters, which differs
from the lowercased `s` that `bt_uuids_update_cb` stores as the key. -/
theorem C26_text_of_accepted_string (s : String) (hw : text_well_formed s.data) :
    ∃ u t, get_bluetooth_uuid_from_str (some s) = some u ∧
      print_numeric_bluetooth_uuid (some u) = some t ∧
      ((u.size = 2 ∧ s.length = 4) ∨ (u.size = 4 ∧ s.length = 8) ∨
          (u.size = 16 ∧ s.length = 36) →
        t = ascii_strdown_inplace s) ∧
      (u.size = 2 ∧ s.length ≠ 4 →
        t = String.mk (((s.data.drop 4).take 4).map g_ascii_tolower) ∧
        t ≠ ascii_strdown_inplace s) := by
  obtain ⟨hl, hf⟩ := (text_well_formed_iff s).mp hw
  have hlen : s.data.length = s.length := rfl
  rcases hl with h4 | h8 | h36
  · have hv := fmt_loop_digits s (Or.inl h4) hf
    rw [h4] at hv
    have e1 := from_str_four s h4 hf
    rw [decoded_four s h4 hf] at e1
    have e2 := print_pairs_two s.data 0 2 [0, 0, 0, 0, 0, 0, 0, 0, 0, 0, 0, 0, 0, 0]
      (mk16 (rd [hex_pair_at s.data 0, hex_pair_at s.data 2, 0, 0, 0, 0, 0, 0, 0, 0, 0, 0, 0, 0, 0, 0] 1)
        (rd [hex_pair_at s.data 0, hex_pair_at s.data 2, 0, 0, 0, 0, 0, 0, 0, 0, 0, 0, 0, 0, 0, 0] 0)) 2 rfl
      (hv 0 (by decide)) (hv 1 (by decide)) (hv 2 (by decide)) (hv 3 (by decide))
    refine ⟨_, _, e1, e2, fun _ => ?_, fun h => absurd h4 h.2⟩
    unfold ascii_strdown_inplace
    rw [map_chr_four s.data h4]
  · have hv := fmt_loop_digits s (Or.inr h8) hf
    rw [h8] at hv
    have e1 := from_str_eight_bt s h8 hf
    rw [decoded_eight s h8 hf] at e1
    by_cases hc : rd [hex_pair_at s.data 0, hex_pair_at s.data 2, hex_pair_at s.data 4,
        hex_pair_at s.data 6, 0, 0, 0, 0, 0, 0, 0, 0, 0, 0, 0, 0] 0 = 0 ∧
        rd [hex_pair_at s.data 0, hex_pair_at s.data 2, hex_pair_at s.data 4,
        hex_pair_at s.data 6, 0, 0, 0, 0, 0, 0, 0, 0, 0, 0, 0, 0] 1 = 0
    · rw [if_pos hc] at e1
      have e2 := print_pairs_two s.data 4 6
        [hex_pair_at s.data 4, hex_pair_at s.data 6, 0, 0, 0, 0, 0, 0, 0, 0, 0, 0, 0, 0]
        (mk16 (hex_pair_at s.data 6) (hex_pair_at s.data 4)) 2 rfl
        (hv 4 (by decide)) (hv 5 (by decide)) (hv 6 (by decide)) (hv 7 (by decide))
      refine ⟨_, _, e1, e2, fun h => ?_, fun _ => ⟨?_, ?_⟩⟩
      · rcases h with ⟨_, h⟩ | ⟨h, _⟩ | ⟨h, _⟩
        · omega
        · simp at h
        · simp at h
      · rw [drop_take_four s.data (by omega)]
      · intro h
        have := congrArg String.length h
        rw [strdown_length, h8] at this
        simp [String.length] at this
    · rw [if_neg hc] at e1
      have e2 := print_pairs_four s.data [0, 0, 0, 0, 0, 0, 0, 0, 0, 0, 0, 0] hv
      refine ⟨_, _, e1, e2, fun _ => ?_, fun h => ?_⟩
      · unfold ascii_strdown_inplace
        rw [map_chr_eight s.data h8]
      · have := h.1
        simp at this
  · have hf36 : fmt_loop s.data 36 = true := by rw [← h36]; exact hf
    have hv := (fmt_loop_long s.data).mp hf36
    have hx : ∀ j, j < 36 → ¬ (j = 8 ∨ j = 13 ∨ j = 18 ∨ j = 23) →
        g_ascii_isxdigit (chr s.data j) = true := by
      intro j hj hsp
      have := hv j hj
      rwa [if_neg hsp] at this
    have e1 := from_str_thirtysix_bt s h36 hf
    rw [decoded_thirtysix s h36 hf] at e1
    by_cases hc : is_base_uuid16
        [hex_pair_at s.data 0, hex_pair_at s.data 2, hex_pair_at s.data 4,
         hex_pair_at s.data 6, hex_pair_at s.data 9, hex_pair_at s.data 11,
         hex_pair_at s.data 14, hex_pair_at s.data 16, hex_pair_at s.data 19,
         hex_pair_at s.data 21, hex_pair_at s.data 24, hex_pair_at s.data 26,
         hex_pair_at s.data 28, hex_pair_at s.data 30, hex_pair_at s.data 32,
         hex_pair_at s.data 34] = true
    · rw [if_pos hc] at e1
      have e2 := print_pairs_two s.data 4 6
        [hex_pair_at s.data 4, hex_pair_at s.data 6, hex_pair_at s.data 9,
         hex_pair_at s.data 11, hex_pair_at s.data 14, hex_pair_at s.data 16,
         hex_pair_at s.data 19, hex_pair_at s.data 21, hex_pair_at s.data 24,
         hex_pair_at s.data 26, hex_pair_at s.data 28, hex_pair_at s.data 30,
         hex_pair_at s.data 32, hex_pair_at s.data 34]
        (mk16 (hex_pair_at s.data 6) (hex_pair_at s.data 4)) 2 rfl
        (hx 4 (by decide) (by decide)) (hx 5 (by decide) (by decide))
        (hx 6 (by decide) (by decide)) (hx 7 (by decide) (by decide))
      refine ⟨_, _, e1, e2, fun h => ?_, fun _ => ⟨?_, ?_⟩⟩
      · rcases h with ⟨_, h⟩ | ⟨h, _⟩ | ⟨h, _⟩
        · omega
        · simp at h
        · simp at h
      · rw [drop_take_four s.data (by omega)]
      · intro h
        have := congrArg String.length h
        rw [strdown_length, h36] at this
        simp [String.length] at this
    · rw [if_neg hc] at e1
      have e2 := print_pairs_sixteen s.data hv
      refine ⟨_, _, e1, e2, fun _ => ?_, fun h => ?_⟩
      · unfold ascii_strdown_inplace
        rw [map_chr_thirtysix s.data h36]
      · have := h.1
        simp at this

/-- Witness of C26: `12AB` is printed as `12ab`; `0000ABCD` is reduced and
printed as `abcd`, its characters 4..7 in lower case. -/
theorem C26_text_of_accepted_string_witness :
    (∃ u, get_bluetooth_uuid_from_str (some "12AB") = some u ∧ u.size = 2 ∧
        print_numeric_bluetooth_uuid (some u) = some "12ab") ∧
      (∃ u, get_bluetooth_uuid_from_str (some "0000ABCD") = some u ∧ u.size = 2 ∧
        print_numeric_bluetooth_uuid (some u) = some "abcd" ∧
        ascii_strdown_inplace "0000ABCD" = "0000abcd") ∧
      ∃ u t, get_bluetooth_uuid_from_str (some "0000ABCD") = some u ∧
        print_numeric_bluetooth_uuid (some u) = some t ∧
        ((u.size = 2 ∧ "0000ABCD".length = 4) ∨ (u.size = 4 ∧ "0000ABCD".length = 8) ∨
            (u.size = 16 ∧ "0000ABCD".length = 36) →
          t = ascii_strdown_inplace "0000ABCD") ∧
        (u.size = 2 ∧ "0000ABCD".length ≠ 4 →
          t = String.mk ((("0000ABCD".data.drop 4).take 4).map g_ascii_tolower) ∧
          t ≠ ascii_strdown_inplace "0000ABCD") :=
  ⟨⟨{ bt_uuid := 0x12AB, size := 2, data := [0x12, 0xAB, 0, 0, 0, 0, 0, 0, 0, 0, 0, 0, 0, 0, 0, 0] }, by decide, rfl, by decide⟩,
   ⟨{ bt_uuid := 0xABCD, size := 2, data := [0xAB, 0xCD, 0xAB, 0xCD, 0, 0, 0, 0, 0, 0, 0, 0, 0, 0, 0, 0] },
     by decide, rfl, by decide, by decide⟩,
   C26_text_of_accepted_string "0000ABCD" ((text_well_formed_iff _).mpr ⟨by decide, by decide⟩)⟩

/-! ## Claims on the text and the lookup of reduced wire identifiers -/

theorem print_numeric_zero_prefix (u : bluetooth_uuid_t) (hs : u.size = 2)
    (h0 : rd u.data 0 = 0) (h1 : rd u.data 1 = 0) :
    print_numeric_bluetooth_uuid (some u) = some "0000" := by
  rw [print_numeric_short u (by omega) (by omega), hs, bytes_to_hexstr_two, h0, h1]
  rfl

theorem description_of_key (tree : wmem_tree_t) (u : bluetooth_uuid_t) (key : String)
    (h : print_numeric_bluetooth_uuid (some u) = some key) :
    bluetooth_get_custom_uuid_description tree u =
      some ((wmem_tree_lookup_string tree key).bind fun v => v.label) := by
  unfold bluetooth_get_custom_uuid_description
  rw [h]
  cases hv : wmem_tree_lookup_string tree key with
  | none => simp [hv]
  | some v => simp [hv]

/-- C27: every 4-byte or 16-byte wire input that `get_bluetooth_uuid` reduces to
width 2 is returned with `data[0] = data[1] = 0` and the short value's bytes at
positions 2..3, so `print_numeric_bluetooth_uuid` returns `0000` whatever the
short value is, and the tree is consulted under the key `0000`. -/
theorem C27_reduced_wire_identifier_prints_0000 (tvb : tvbuff_t) (offset w : Nat)
    (hw : w = 4 ∨ w = 16) (h : offset + w ≤ tvb.length) (u : bluetooth_uuid_t)
    (hu : get_bluetooth_uuid tvb offset (w : Int) = some u) (hr : u.size = 2) :
    rd u.data 0 = 0 ∧ rd u.data 1 = 0 ∧
      u.bt_uuid = rd u.data 2 <<< 8 ||| rd u.data 3 ∧
      print_numeric_bluetooth_uuid (some u) = some "0000" ∧
      ∀ tree, bluetooth_get_custom_uuid_description tree u =
        some ((wmem_tree_lookup_string tree "0000").bind fun v => v.label) := by
  have key : rd u.data 0 = 0 ∧ rd u.data 1 = 0 ∧
      u.bt_uuid = rd u.data 2 <<< 8 ||| rd u.data 3 := by
    rcases hw with rfl | rfl
    · have e : get_bluetooth_uuid tvb offset 4 = some u := hu
      rw [get_bluetooth_uuid_four tvb offset h] at e
      by_cases hc : wire tvb offset 3 = 0 ∧ wire tvb offset 2 = 0
      · rw [if_pos hc] at e
        cases e
        exact ⟨hc.1, hc.2, mk16_eq _ _ (wire_lt tvb offset 0) (wire_lt tvb offset 1)⟩
      · rw [if_neg hc] at e
        cases e
        simp at hr
    · have e : get_bluetooth_uuid tvb offset 16 = some u := hu
      rw [get_bluetooth_uuid_sixteen tvb offset h] at e
      by_cases hb : is_base_uuid16 (rev16 tvb offset) = true
      · rw [if_pos hb] at e
        cases e
        have hz := (is_base_uuid16_iff _ (rev16_length tvb offset)).mp hb
        exact ⟨hz.1, hz.2.1, mk16_eq _ _ (wire_lt tvb offset 12) (wire_lt tvb offset 13)⟩
      · rw [if_neg hb] at e
        cases e
        simp at hr
  have hp := print_numeric_zero_prefix u hr key.1 key.2.1
  exact ⟨key.1, key.2.1, key.2.2, hp, fun tree => description_of_key tree u "0000" hp⟩

/-- Witness of C27: the 4-byte wire form `CD AB 00 00` of the short value
`0xABCD`. -/
theorem C27_reduced_wire_identifier_prints_0000_witness :
    rd [0x00, 0x00, 0xAB, 0xCD, 0, 0, 0, 0, 0, 0, 0, 0, 0, 0, 0, 0] 0 = 0 ∧ rd [0x00, 0x00, 0xAB, 0xCD, 0, 0, 0, 0, 0, 0, 0, 0, 0, 0, 0, 0] 1 = 0 ∧
      0xABCD = rd [0x00, 0x00, 0xAB, 0xCD, 0, 0, 0, 0, 0, 0, 0, 0, 0, 0, 0, 0] 2 <<< 8 ||| rd [0x00, 0x00, 0xAB, 0xCD, 0, 0, 0, 0, 0, 0, 0, 0, 0, 0, 0, 0] 3 ∧
      print_numeric_bluetooth_uuid
        (some { bt_uuid := 0xABCD, size := 2, data := [0x00, 0x00, 0xAB, 0xCD, 0, 0, 0, 0, 0, 0, 0, 0, 0, 0, 0, 0] }) =
          some "0000" ∧
      ∀ tree, bluetooth_get_custom_uuid_description tree
          { bt_uuid := 0xABCD, size := 2, data := [0x00, 0x00, 0xAB, 0xCD, 0, 0, 0, 0, 0, 0, 0, 0, 0, 0, 0, 0] } =
        some ((wmem_tree_lookup_string tree "0000").bind fun v => v.label) :=
  C27_reduced_wire_identifier_prints_0000 [0xCD, 0xAB, 0x00, 0x00] 0 4 (Or.inl rfl)
    (by decide) { bt_uuid := 0xABCD, size := 2, data := [0x00, 0x00, 0xAB, 0xCD, 0, 0, 0, 0, 0, 0, 0, 0, 0, 0, 0, 0] }
    (by decide) rfl

/-! ## Claims on keys with uppercase letters -/

theorem low_nibble_not_upper (n : Nat) :
    is_upper (low_nibble_of_octet_to_hex n) = false := by
  unfold low_nibble_of_octet_to_hex
  have h : n % 16 < 16 := Nat.mod_lt _ (by decide)
  generalize n % 16 = m at h
  interval_cases m <;> decide

theorem mem_bytes_to_hexstr (ad : List Nat) (len : Nat) (c : Char)
    (h : c ∈ bytes_to_hexstr ad len) : is_upper c = false := by
  simp only [bytes_to_hexstr, List.mem_flatMap, List.mem_range, List.mem_cons,
    List.mem_singleton, List.not_mem_nil, or_false] at h
  obtain ⟨i, _, hc | hc⟩ := h
  · rw [hc]
    exact low_nibble_not_upper _
  · rw [hc]
    exact low_nibble_not_upper _

/-- The function `print_numeric_bluetooth_uuid` never outputs a letter `A-Z`. -/
theorem print_numeric_no_upper (u : bluetooth_uuid_t) (t : String)
    (h : print_numeric_bluetooth_uuid (some u) = some t) :
    ∀ c ∈ t.data, is_upper c = false := by
  by_cases h0 : u.size = 0
  · simp [print_numeric_bluetooth_uuid, h0] at h
  · by_cases h16 : u.size = 16
    · rw [print_numeric_long u h16] at h
      cases h
      intro c hc
      simp only [List.mem_append, List.mem_singleton] at hc
      rcases hc with (((((((hc | hc) | hc) | hc) | hc) | hc) | hc) | hc) | hc
      · exact mem_bytes_to_hexstr _ _ c hc
      · rw [hc]; rfl
      · exact mem_bytes_to_hexstr _ _ c hc
      · rw [hc]; rfl
      · exact mem_bytes_to_hexstr _ _ c hc
      · rw [hc]; rfl
      · exact mem_bytes_to_hexstr _ _ c hc
      · rw [hc]; rfl
      · exact mem_bytes_to_hexstr _ _ c hc
    · rw [print_numeric_short u h0 h16] at h
      cases h
      intro c hc
      exact mem_bytes_to_hexstr _ _ c hc

theorem find_filter_ne (tree : wmem_tree_t) (k k' : String) (hne : k' ≠ k) :
    (tree.filter fun e => e.1 ≠ k).find? (fun e => e.1 = k') =
      tree.find? (fun e => e.1 = k') := by
  rw [List.find?_filter]
  congr 1
  funext e
  by_cases h : e.1 = k'
  · simp [h, hne]
  · simp [h]

theorem lookup_insert_ne (tree : wmem_tree_t) (k k' : String) (v : bt_uuid_t)
    (hne : k' ≠ k) :
    wmem_tree_lookup_string (wmem_tree_insert_string tree k v) k' =
      wmem_tree_lookup_string tree k' := by
  have hk : ¬ k = k' := fun h => hne h.symm
  unfold wmem_tree_lookup_string wmem_tree_insert_string
  rw [List.find?_cons]
  simp only [hk, decide_False]
  rw [find_filter_ne tree k k' hne]

/-- C28: `print_numeric_bluetooth_uuid` never outputs an uppercase letter and
`bluetooth_add_custom_uuid` stores its key as it is given; so for every
identifier, the entry added under a key that holds an uppercase letter is never
the one that the lookup by the text of the identifier finds:
`bluetooth_get_custom_uuid_description` and `print_bluetooth_uuid` answer as
they do without the entry. -/
theorem C28_uppercase_key_is_never_found (tree : wmem_tree_t) (key label : String)
    (a : Bool) (u : bluetooth_uuid_t) (hk : ∃ c ∈ key.data, is_upper c = true) :
    (∀ t, print_numeric_bluetooth_uuid (some u) = some t →
      (∀ c ∈ t.data, is_upper c = false) ∧ t ≠ key) ∧
    wmem_tree_lookup_string (bluetooth_add_custom_uuid tree key label a) key =
      some ⟨some key, some label, a⟩ ∧
    bluetooth_get_custom_uuid_description (bluetooth_add_custom_uuid tree key label a) u =
      bluetooth_get_custom_uuid_description tree u ∧
    ∀ f, print_bluetooth_uuid f (bluetooth_add_custom_uuid tree key label a) u =
      print_bluetooth_uuid f tree u := by
  have hne : ∀ t, print_numeric_bluetooth_uuid (some u) = some t → t ≠ key := by
    intro t ht he
    obtain ⟨c, hc, hu⟩ := hk
    rw [← he] at hc
    rw [print_numeric_no_upper u t ht c hc] at hu
    cases hu
  have hd : bluetooth_get_custom_uuid_description (bluetooth_add_custom_uuid tree key label a) u =
      bluetooth_get_custom_uuid_description tree u := by
    unfold bluetooth_get_custom_uuid_description
    cases ht : print_numeric_bluetooth_uuid (some u) with
    | none => rfl
    | some t =>
      simp only [bluetooth_add_custom_uuid]
      rw [lookup_insert_ne tree key t _ (hne t ht)]
  refine ⟨fun t ht => ⟨print_numeric_no_upper u t ht, hne t ht⟩, lookup_insert_self _ _ _,
    hd, fun f => ?_⟩
  unfold print_bluetooth_uuid
  rw [hd]

/-- Witness of C28: after the three calls of `proto_reg_handoff_bluetooth` the
identifier `7905f431-b5ce-4e99-a40f-4b1e122d00d0` is answered with `Unknown`,
although the tree holds `Apple Notification Center Service` under the key in
upper case. -/
theorem C28_uppercase_key_is_never_found_witness :
    wmem_tree_lookup_string (proto_reg_handoff_bluetooth [])
        "7905F431-B5CE-4E99-A40F-4B1E122D00D0" =
        some ⟨some "7905F431-B5CE-4E99-A40F-4B1E122D00D0",
          some "Apple Notification Center Service", false⟩ ∧
      print_bluetooth_uuid (fun _ => none) (proto_reg_handoff_bluetooth [])
        { bt_uuid := 0, size := 16,
          data := [0x79, 0x05, 0xF4, 0x31, 0xB5, 0xCE, 0x4E, 0x99, 0xA4, 0x0F, 0x4B, 0x1E,
                   0x12, 0x2D, 0x00, 0xD0] } = some "Unknown" ∧
      ∀ f, print_bluetooth_uuid f
          (bluetooth_add_custom_uuid [] "7905F431-B5CE-4E99-A40F-4B1E122D00D0"
            "Apple Notification Center Service" false)
          { bt_uuid := 0, size := 16,
            data := [0x79, 0x05, 0xF4, 0x31, 0xB5, 0xCE, 0x4E, 0x99, 0xA4, 0x0F, 0x4B, 0x1E,
                     0x12, 0x2D, 0x00, 0xD0] } =
        print_bluetooth_uuid f []
          { bt_uuid := 0, size := 16,
            data := [0x79, 0x05, 0xF4, 0x31, 0xB5, 0xCE, 0x4E, 0x99, 0xA4, 0x0F, 0x4B, 0x1E,
                     0x12, 0x2D, 0x00, 0xD0] } :=
  ⟨by decide, by decide,
   (C28_uppercase_key_is_never_found [] "7905F431-B5CE-4E99-A40F-4B1E122D00D0"
      "Apple Notification Center Service" false
      { bt_uuid := 0, size := 16,
        data := [0x79, 0x05, 0xF4, 0x31, 0xB5, 0xCE, 0x4E, 0x99, 0xA4, 0x0F, 0x4B, 0x1E,
                 0x12, 0x2D, 0x00, 0xD0] }
      ⟨'F', by decide, by decide⟩).2.2.2⟩

/-! ## Claims on the reads of the decode loop -/

/-- C29: for every string that passes the validation loop, the decode loop ends
with the pointer at the length of the string, having consumed two characters per
byte and the hyphens; every position it reads is below the length, both
characters of every pair are hexadecimal digits, every hyphen of the string is
met by the test at the head of an iteration, and the function returns (the
`ws_assert_not_reached` branch is not taken). -/
theorem C29_decode_loop_reads_in_bounds (s : String)
    (hl : s.length = 4 ∨ s.length = 8 ∨ s.length = 36)
    (hf : fmt_loop s.data s.length = true) :
    (decode_loop s.data (byte_count s.length) 0 0 uuid_zero.data).1 = s.length ∧
    (decode_steps s.data (byte_count s.length) 0).2 = s.length ∧
    s.length = 2 * byte_count s.length +
      ((decode_steps s.data (byte_count s.length) 0).1.filter fun pq => pq.2 ≠ pq.1).length ∧
    (∀ pq ∈ (decode_steps s.data (byte_count s.length) 0).1,
      pq.1 < s.length ∧ pq.2 + 1 < s.length ∧
      g_ascii_isxdigit (chr s.data pq.2) = true ∧
      g_ascii_isxdigit (chr s.data (pq.2 + 1)) = true ∧
      (pq.2 = pq.1 ∨ (chr s.data pq.1 = '-' ∧ pq.2 = pq.1 + 1))) ∧
    (∀ j, j < s.length → chr s.data j = '-' →
      (j, j + 1) ∈ (decode_steps s.data (byte_count s.length) 0).1) ∧
    ∃ u, get_bluetooth_uuid_from_str (some s) = some u := by
  have htot := from_str_total (some s)
  have hfst := decode_loop_fst s.data (byte_count s.length) 0 0 uuid_zero.data
  rw [hfst]
  rcases hl with h4 | h8 | h36
  · have hv := fmt_loop_digits s (Or.inl h4) hf
    have hb : byte_count s.length = 2 := by rw [h4]; rfl
    rw [h4] at hv
    rw [hb, (decode_loop_four s.data hv).2, h4]
    dsimp only
    refine ⟨rfl, rfl, by decide, ?_, ?_, htot⟩
    · intro pq hpq
      simp only [List.mem_cons, List.mem_singleton, List.not_mem_nil, or_false] at hpq
      rcases hpq with rfl | rfl <;> dsimp only <;>
        exact ⟨by omega, by omega, hv _ (by omega), hv _ (by omega), Or.inl rfl⟩
    · intro j hj hh
      exact absurd hh (xdigit_ne_hyphen _ (hv j hj))
  · have hv := fmt_loop_digits s (Or.inr h8) hf
    have hb : byte_count s.length = 4 := by rw [h8]; rfl
    rw [h8] at hv
    rw [hb, (decode_loop_eight s.data hv).2, h8]
    dsimp only
    refine ⟨rfl, rfl, by decide, ?_, ?_, htot⟩
    · intro pq hpq
      simp only [List.mem_cons, List.mem_singleton, List.not_mem_nil, or_false] at hpq
      rcases hpq with rfl | rfl | rfl | rfl <;> dsimp only <;>
        exact ⟨by omega, by omega, hv _ (by omega), hv _ (by omega), Or.inl rfl⟩
    · intro j hj hh
      exact absurd hh (xdigit_ne_hyphen _ (hv j hj))
  · have hf36 : fmt_loop s.data 36 = true := by rw [← h36]; exact hf
    have hv := (fmt_loop_long s.data).mp hf36
    have hx : ∀ j, j < 36 → ¬ (j = 8 ∨ j = 13 ∨ j = 18 ∨ j = 23) →
        g_ascii_isxdigit (chr s.data j) = true := by
      intro j hj hsp
      have := hv j hj
      rwa [if_neg hsp] at this
    have hs : ∀ j, j = 8 ∨ j = 13 ∨ j = 18 ∨ j = 23 → chr s.data j = '-' := by
      intro j hsp
      have := hv j (by omega)
      rwa [if_pos hsp] at this
    have hb : byte_count s.length = 16 := by rw [h36]; rfl
    rw [hb, (decode_loop_template s.data hv).2, h36]
    dsimp only
    refine ⟨rfl, rfl, by decide, ?_, ?_, htot⟩
    · intro pq hpq
      simp only [List.mem_cons, List.mem_singleton, List.not_mem_nil, or_false] at hpq
      rcases hpq with rfl | rfl | rfl | rfl | rfl | rfl | rfl | rfl | rfl | rfl | rfl | rfl |
        rfl | rfl | rfl | rfl <;> dsimp only <;>
        first
        | exact ⟨by omega, by omega, hx _ (by omega) (by omega), hx _ (by omega) (by omega),
            Or.inl rfl⟩
        | exact ⟨by omega, by omega, hx _ (by omega) (by omega), hx _ (by omega) (by omega),
            Or.inr ⟨hs _ (by omega), rfl⟩⟩
    · intro j hj hh
      have hsp : j = 8 ∨ j = 13 ∨ j = 18 ∨ j = 23 := by
        by_contra hn
        exact xdigit_ne_hyphen _ (hx j hj hn) hh
      rcases hsp with rfl | rfl | rfl | rfl <;> decide

/-- Witness of C29: the text `7905f431-b5ce-4e99-a40f-4b1e122d00d0`; the loop
ends at position 36 after 16 pairs and 4 hyphens. -/
theorem C29_decode_loop_reads_in_bounds_witness :
    decode_steps "7905f431-b5ce-4e99-a40f-4b1e122d00d0".data 16 0 =
        ([(0, 0), (2, 2), (4, 4), (6, 6), (8, 9), (11, 11), (13, 14), (16, 16), (18, 19),
          (21, 21), (23, 24), (26, 26), (28, 28), (30, 30), (32, 32), (34, 34)], 36) ∧
      (decode_loop "7905f431-b5ce-4e99-a40f-4b1e122d00d0".data
        (byte_count "7905f431-b5ce-4e99-a40f-4b1e122d00d0".length) 0 0 uuid_zero.data).1 =
        "7905f431-b5ce-4e99-a40f-4b1e122d00d0".length :=
  ⟨by decide,
   (C29_decode_loop_reads_in_bounds "7905f431-b5ce-4e99-a40f-4b1e122d00d0"
      (by decide) (by decide)).1⟩

/-! ## Claims on the width and the short value of every returned identifier -/

theorem get_result_shape (tvb : tvbuff_t) (offset : Nat) (size : Int)
    (u : bluetooth_uuid_t) (h : get_bluetooth_uuid tvb offset size = some u) :
    (u.size = 0 ∧ u.bt_uuid = 0) ∨ u.size = 2 ∨ (u.size = 4 ∧ u.bt_uuid = 0) ∨
      (u.size = 16 ∧ u.bt_uuid = 0) := by
  by_cases hv : size = 2 ∨ size = 4 ∨ size = 16
  · rcases hv with rfl | rfl | rfl
    · by_cases hl : offset + 2 ≤ tvb.length
      · rw [get_bluetooth_uuid_two tvb offset hl] at h
        cases h
        exact Or.inr (Or.inl rfl)
      · have e : get_bluetooth_uuid tvb offset 2 = none :=
          get_bluetooth_uuid_short_buffer tvb offset 2 (by simp) (by omega)
        rw [e] at h
        cases h
    · by_cases hl : offset + 4 ≤ tvb.length
      · rw [get_bluetooth_uuid_four tvb offset hl] at h
        by_cases hc : wire tvb offset 3 = 0 ∧ wire tvb offset 2 = 0
        · rw [if_pos hc] at h
          cases h
          exact Or.inr (Or.inl rfl)
        · rw [if_neg hc] at h
          cases h
          exact Or.inr (Or.inr (Or.inl ⟨rfl, rfl⟩))
      · have e : get_bluetooth_uuid tvb offset 4 = none :=
          get_bluetooth_uuid_short_buffer tvb offset 4 (by simp) (by omega)
        rw [e] at h
        cases h
    · by_cases hl : offset + 16 ≤ tvb.length
      · rw [get_bluetooth_uuid_sixteen tvb offset hl] at h
        by_cases hb : is_base_uuid16 (rev16 tvb offset) = true
        · rw [if_pos hb] at h
          cases h
          exact Or.inr (Or.inl rfl)
        · rw [if_neg hb] at h
          cases h
          exact Or.inr (Or.inr (Or.inr ⟨rfl, rfl⟩))
      · have e : get_bluetooth_uuid tvb offset 16 = none :=
          get_bluetooth_uuid_short_buffer tvb offset 16 (by simp) (by omega)
        rw [e] at h
        cases h
  · have hc : size ≠ 2 ∧ size ≠ 4 ∧ size ≠ 16 :=
      ⟨fun e => hv (Or.inl e), fun e => hv (Or.inr (Or.inl e)),
        fun e => hv (Or.inr (Or.inr e))⟩
    unfold get_bluetooth_uuid at h
    simp only [if_pos hc] at h
    cases h
    exact Or.inl ⟨rfl, rfl⟩

theorem from_str_result_shape (str : Option String) (u : bluetooth_uuid_t)
    (h : get_bluetooth_uuid_from_str str = some u) :
    (u.size = 0 ∧ u.bt_uuid = 0) ∨ u.size = 2 ∨ (u.size = 4 ∧ u.bt_uuid = 0) ∨
      (u.size = 16 ∧ u.bt_uuid = 0) := by
  cases str with
  | none =>
    rw [from_str_null] at h
    cases h
    exact Or.inl ⟨rfl, rfl⟩
  | some s =>
    by_cases hw : text_well_formed s.data
    · obtain ⟨hl, hf⟩ := (text_well_formed_iff s).mp hw
      rcases hl with h4 | h8 | h36
      · rw [from_str_four s h4 hf] at h
        cases h
        exact Or.inr (Or.inl rfl)
      · rw [from_str_eight_bt s h8 hf] at h
        by_cases hc : rd (decoded s 4) 0 = 0 ∧ rd (decoded s 4) 1 = 0
        · rw [if_pos hc] at h
          cases h
          exact Or.inr (Or.inl rfl)
        · rw [if_neg hc] at h
          cases h
          exact Or.inr (Or.inr (Or.inl ⟨rfl, rfl⟩))
      · rw [from_str_thirtysix_bt s h36 hf] at h
        by_cases hb : is_base_uuid16 (decoded s 16) = true
        · rw [if_pos hb] at h
          cases h
          exact Or.inr (Or.inl rfl)
        · rw [if_neg hb] at h
          cases h
          exact Or.inr (Or.inr (Or.inr ⟨rfl, rfl⟩))
    · rw [from_str_rejected s hw] at h
      cases h
      exact Or.inl ⟨rfl, rfl⟩

/-- C30: every identifier returned by `get_bluetooth_uuid` or by
`get_bluetooth_uuid_from_str` has width 0, 2, 4 or 16 and a non-zero `bt_uuid`
only at width 2; so the test `bt_uuid != 0` of `print_bluetooth_uuid` lets the
built-in table decide exactly for the width-2 identifiers with a non-zero short
value, and for every other identifier the answer does not depend on the table. -/
theorem C30_width_and_short_value_of_results (tvb : tvbuff_t) (offset : Nat) (size : Int)
    (str : Option String) (u : bluetooth_uuid_t)
    (h : get_bluetooth_uuid tvb offset size = some u ∨
         get_bluetooth_uuid_from_str str = some u) :
    (u.size = 0 ∨ u.size = 2 ∨ u.size = 4 ∨ u.size = 16) ∧
    (u.bt_uuid ≠ 0 → u.size = 2) ∧
    (u.bt_uuid ≠ 0 ↔ u.size = 2 ∧ u.bt_uuid ≠ 0) ∧
    ∀ (f : Nat → Option String) (tree : wmem_tree_t),
      (u.bt_uuid = 0 → print_bluetooth_uuid f tree u = print_bluetooth_uuid (fun _ => none) tree u) ∧
      (u.bt_uuid ≠ 0 → ∀ name, f u.bt_uuid = some name →
        print_bluetooth_uuid f tree u = some name) := by
  have shape : (u.size = 0 ∧ u.bt_uuid = 0) ∨ u.size = 2 ∨ (u.size = 4 ∧ u.bt_uuid = 0) ∨
      (u.size = 16 ∧ u.bt_uuid = 0) := by
    rcases h with h | h
    · exact get_result_shape tvb offset size u h
    · exact from_str_result_shape str u h
  have h2 : u.bt_uuid ≠ 0 → u.size = 2 := by
    intro hnz
    rcases shape with ⟨_, hz⟩ | hs | ⟨_, hz⟩ | ⟨_, hz⟩
    · exact absurd hz hnz
    · exact hs
    · exact absurd hz hnz
    · exact absurd hz hnz
  refine ⟨?_, h2, ⟨fun hnz => ⟨h2 hnz, hnz⟩, fun hh => hh.2⟩, fun f tree => ⟨fun hz => ?_,
    fun hnz name hf => ?_⟩⟩
  · rcases shape with ⟨hs, _⟩ | hs | ⟨hs, _⟩ | ⟨hs, _⟩
    · exact Or.inl hs
    · exact Or.inr (Or.inl hs)
    · exact Or.inr (Or.inr (Or.inl hs))
    · exact Or.inr (Or.inr (Or.inr hs))
  · rw [print_bluetooth_uuid_custom f tree u (Or.inl hz),
      print_bluetooth_uuid_custom (fun _ => none) tree u (Or.inl hz)]
  · simp [print_bluetooth_uuid, hnz, hf]

/-- Witness of C30: the identifier of the 4-byte wire form `00 00 01 00`, width
4 with `bt_uuid = 0`. -/
theorem C30_width_and_short_value_of_results_witness :
    get_bluetooth_uuid [0x00, 0x00, 0x01, 0x00] 0 4 =
        some { bt_uuid := 0, size := 4, data := [0x00, 0x01, 0x00, 0x00, 0, 0, 0, 0, 0, 0, 0, 0, 0, 0, 0, 0] } ∧
      ((4 : Nat) = 0 ∨ (4 : Nat) = 2 ∨ (4 : Nat) = 4 ∨ (4 : Nat) = 16) ∧
      ((0 : Nat) ≠ 0 → (4 : Nat) = 2) :=
  ⟨by decide,
   (C30_width_and_short_value_of_results [0x00, 0x00, 0x01, 0x00] 0 4 none
      { bt_uuid := 0, size := 4, data := [0x00, 0x01, 0x00, 0x00, 0, 0, 0, 0, 0, 0, 0, 0, 0, 0, 0, 0] }
      (Or.inl (by decide))).1,
   (C30_width_and_short_value_of_results [0x00, 0x00, 0x01, 0x00] 0 4 none
      { bt_uuid := 0, size := 4, data := [0x00, 0x01, 0x00, 0x00, 0, 0, 0, 0, 0, 0, 0, 0, 0, 0, 0, 0] }
      (Or.inl (by decide))).2.1⟩

/-! ## Claims on stale records and on rejected rows -/

/-- C21 (evaluation at the failing input): after the upsert of the key `1234`
with the label `@PxUUU` and then with the label `B`, the tree holds `B`. The
bytes of the stored struct, which is what `strcmp` reads in `bt_uuids_free_cb`,
spell `@PxUUU`; freeing the copy of the first record then removes the second
entry. -/
theorem C21_stale_record_removes_newer_entry :
    ∃ t1 t2 t3,
      upsert [] ⟨some "1234", some "@PxUUU", false⟩ = some t1 ∧
      upsert t1 ⟨some "1234", some "B", true⟩ = some t2 ∧
      wmem_tree_lookup_string t2 "1234" = some ⟨some "1234", some "B", true⟩ ∧
      bt_uuids_free_cb (fun _ => "@PxUUU") t2
        (bt_uuids_copy_cb ⟨some "1234", some "@PxUUU", false⟩) = some t3 ∧
      wmem_tree_lookup_string t3 "1234" = none :=
  ⟨[("1234", ⟨some "1234", some "@PxUUU", false⟩)],
   [("1234", ⟨some "1234", some "B", true⟩)], [],
   by decide, by decide, by decide, by decide, by decide⟩

end Bluetooth
